import Mathlib

/-!
Shallow embedding of the customer-hierarchy engine of the Subcontact_warr
repository: the entity model (`src/types.ts`), the validation rules and the
hierarchy mutation engine (the `useCustomerData` hook), and the batch import
resolver (`analyzeRows` / `processFile` of the `ImportCustomers` component).

Conventions of the embedding:
* TypeScript `string | null | undefined` fields become `Option String`
  (`none` covers both `null` and `undefined`; the code never distinguishes
  them).  JavaScript string truthiness (`!s`) is the test `s == ""` for plain
  strings and `optFalsy` for optional ones.
* `String.prototype.trim` / `toLowerCase` are re-implemented character-wise
  (`jsTrim` / `jsLower`) so that they reduce inside the kernel; they agree
  with Lean's own `String.trim` / `String.toLower` on every input.
* The nondeterministically generated identifiers (`Date.now()`,
  `Math.random()`) are an explicit id supply: a function `Nat → String`
  consumed in program order, plus opaque string parameters for the
  timestamps.  The React `setCustomers` state update is explicit state
  passing: each engine operation maps a population (a `List Customer`) to
  the next population.
-/

namespace Subcontact

/-- JavaScript `String.prototype.toLowerCase` (per-character lowering),
written so that it reduces by `decide`. -/
def jsLower (s : String) : String := String.mk (s.data.map Char.toLower)

/-- JavaScript `String.prototype.trim` (strip leading and trailing
whitespace), written so that it reduces by `decide`. -/
def jsTrim (s : String) : String :=
  String.mk (((s.data.dropWhile Char.isWhitespace).reverse.dropWhile Char.isWhitespace).reverse)

/-- JavaScript falsiness of a `string | null | undefined` value:
`null`, `undefined` and the empty string are falsy. -/
def optFalsy : Option String → Bool
  | none => true
  | some s => s == ""

/-- `src/types.ts` `enum CustomerType`. -/
inductive CustomerType
  | DIRECT
  | PARENT
deriving DecidableEq, Repr

/-- `src/types.ts` `interface Contact`. -/
structure Contact where
  id : String
  name : String
  email : String
  phone : String
  isPrimary : Bool
deriving DecidableEq, Repr

/-- `src/types.ts` `interface Address` (`street`, `latitude`, `longitude`
are optional). -/
structure Address where
  id : String
  street : Option String
  latitude : Option String
  longitude : Option String
  city : String
  state : String
  zipCode : String
  isPrimary : Bool
  isBilling : Bool
  isGateProperty : Bool
deriving DecidableEq, Repr

/-- `src/types.ts` `interface Customer` (`parentId?: string | null`). -/
structure Customer where
  id : String
  type : CustomerType
  name : String
  accountNumber : String
  isVip : Bool
  addresses : List Address
  parentId : Option String
  contacts : List Contact
  createdAt : String
deriving DecidableEq, Repr

/-- `src/types.ts` `interface CustomerFormData` (everything of a `Customer`
except the identity and the timestamp). -/
structure CustomerFormData where
  type : CustomerType
  name : String
  accountNumber : String
  isVip : Bool
  addresses : List Address
  parentId : Option String
  contacts : List Contact
deriving DecidableEq, Repr

/-! ## Validation rules (`useCustomerData.checkAccountNumberUnique` /
`validateCustomer`) -/

/-- `checkAccountNumberUnique(accountNumber, excludeId?)`: no other customer
uses the account number (`c.id !== excludeId` with `excludeId` possibly
`undefined`). -/
def checkAccountNumberUnique (customers : List Customer) (accountNumber : String)
    (excludeId : Option String) : Bool :=
  ! customers.any fun c => c.accountNumber == accountNumber && some c.id != excludeId

/-- `!!addr.street?.trim()` of `validateCustomer`. -/
def hasStreet (a : Address) : Bool :=
  match a.street with
  | none => false
  | some s => jsTrim s != ""

/-- `!!addr.latitude?.trim() && !!addr.longitude?.trim()` of
`validateCustomer`. -/
def hasLatLong (a : Address) : Bool :=
  (match a.latitude with | none => false | some s => jsTrim s != "") &&
  (match a.longitude with | none => false | some s => jsTrim s != "")

/-- The per-address messages of `validateCustomer`'s
`data.addresses.forEach((addr, idx) => ...)` body, for the address at
0-based position `idx`. -/
def addressRowErrors (idx : Nat) (addr : Address) : List String :=
  (if !hasStreet addr && !hasLatLong addr then
    ["Address #" ++ toString (idx + 1) ++ ": Must provide either Street Address OR Latitude + Longitude."]
   else []) ++
  (if jsTrim addr.city == "" then ["Address #" ++ toString (idx + 1) ++ ": City is required."] else []) ++
  (if jsTrim addr.state == "" then ["Address #" ++ toString (idx + 1) ++ ": State is required."] else []) ++
  (if jsTrim addr.zipCode == "" then ["Address #" ++ toString (idx + 1) ++ ": Zip Code is required."] else [])

/-- The `forEach` loop over `data.addresses`, carrying the running index. -/
def addressesErrors : Nat → List Address → List String
  | _, [] => []
  | idx, a :: rest => addressRowErrors idx a ++ addressesErrors (idx + 1) rest

/-- The per-contact messages of `validateCustomer`'s
`data.contacts.forEach((c, idx) => ...)` body. -/
def contactRowErrors (idx : Nat) (c : Contact) : List String :=
  (if jsTrim c.name == "" then ["Contact #" ++ toString (idx + 1) ++ ": Name is required."] else []) ++
  (if jsTrim c.email == "" then ["Contact #" ++ toString (idx + 1) ++ ": Email is required."] else []) ++
  (if jsTrim c.phone == "" then ["Contact #" ++ toString (idx + 1) ++ ": Phone is required."] else [])

/-- The `forEach` loop over `data.contacts`. -/
def contactsErrors : Nat → List Contact → List String
  | _, [] => []
  | idx, c :: rest => contactRowErrors idx c ++ contactsErrors (idx + 1) rest

/-- `validateCustomer(data, existingId?)` of `useCustomerData`: the collected
violation messages, in source order.  Pure by construction (the hook closes
over `customers`, passed here explicitly). -/
def validateCustomer (customers : List Customer) (data : CustomerFormData)
    (existingId : Option String) : List String :=
  (if jsTrim data.name == "" then ["Customer Name is required."] else []) ++
  (if jsTrim data.accountNumber == "" then ["Account Number is required."] else []) ++
  (if !checkAccountNumberUnique customers data.accountNumber existingId then
    ["Account Number '" ++ data.accountNumber ++ "' is already in use."]
   else []) ++
  (if data.addresses.length == 0 then ["At least one address is required."]
   else
    (if (data.addresses.filter fun a => a.isPrimary).length == 0 then
      ["You must designate exactly one Primary Location address."] else []) ++
    (if (data.addresses.filter fun a => a.isPrimary).length > 1 then
      ["Only one address can be marked as the Primary Location."] else []) ++
    (if (data.addresses.filter fun a => a.isBilling).length == 0 then
      ["You must designate exactly one Billing Address."] else []) ++
    (if (data.addresses.filter fun a => a.isBilling).length > 1 then
      ["Only one address can be marked as the Billing Address."] else []) ++
    addressesErrors 0 data.addresses) ++
  (if data.contacts.length == 0 then ["At least one contact person is required."]
   else
    (if (data.contacts.filter fun c => c.isPrimary).length == 0 then
      ["You must designate exactly one Primary Contact."] else []) ++
    (if (data.contacts.filter fun c => c.isPrimary).length > 1 then
      ["Only one contact can be marked as Primary."] else []) ++
    contactsErrors 0 data.contacts) ++
  (if data.type == CustomerType.PARENT && !optFalsy data.parentId then
    ["A Parent Customer cannot have a Parent."]
   else [])

/-! ## Hierarchy mutation engine (`addCustomer`, `batchAddCustomers`,
`updateCustomer`, `deleteCustomer` of `useCustomerData`) -/

/-- The spread `{ ...c, ...data }` of `updateCustomer`: replace every field
of the stored record by the candidate's, keeping `id` and `createdAt`. -/
def replaceWith (c : Customer) (data : CustomerFormData) : Customer :=
  { c with
    type := data.type, name := data.name, accountNumber := data.accountNumber,
    isVip := data.isVip, addresses := data.addresses, parentId := data.parentId,
    contacts := data.contacts }

/-- `addCustomer(data, childIdsToLink = [])`.  `newId` stands for the
generated `cust_${Date.now()}` and `ts` for `new Date().toISOString()`. -/
def addCustomer (customers : List Customer) (data : CustomerFormData)
    (childIdsToLink : List String) (newId ts : String) : List Customer :=
  let newCustomer : Customer :=
    { id := newId, type := data.type, name := data.name,
      accountNumber := data.accountNumber, isVip := data.isVip,
      addresses := data.addresses,
      parentId := if data.type == CustomerType.DIRECT then data.parentId else none,
      contacts := data.contacts, createdAt := ts }
  let updated := customers ++ [newCustomer]
  if data.type == CustomerType.PARENT && childIdsToLink.length > 0 then
    updated.map fun c =>
      if childIdsToLink.contains c.id then
        { c with parentId := some newCustomer.id, type := CustomerType.DIRECT }
      else c
  else updated

/-- `batchAddCustomers(newCustomers)`. -/
def batchAddCustomers (customers newCustomers : List Customer) : List Customer :=
  customers ++ newCustomers

/-- The first map of `updateCustomer`: `c.id === id ? { ...c, ...data } : c`. -/
def updApplyData (id : String) (data : CustomerFormData) (c : Customer) : Customer :=
  if c.id == id then replaceWith c data else c

/-- `updateCustomer`'s unlink pass: a record still pointing at `id` but no
longer in `childIdsToLink` is demoted to an independent PARENT. -/
def unlinkPass (id : String) (childIdsToLink : List String) (c : Customer) : Customer :=
  if c.parentId == some id && !childIdsToLink.contains c.id then
    { c with parentId := none, type := CustomerType.PARENT }
  else c

/-- `updateCustomer`'s link pass: a record in `childIdsToLink` is attached
to `id` and forced DIRECT. -/
def linkPass (id : String) (childIdsToLink : List String) (c : Customer) : Customer :=
  if childIdsToLink.contains c.id then
    { c with parentId := some id, type := CustomerType.DIRECT }
  else c

/-- `updateCustomer(id, data, childIdsToLink = [])`: replace the record's
fields, then (for a PARENT candidate) the unlink pass followed by the link
pass, in that order. -/
def updateCustomer (customers : List Customer) (id : String)
    (data : CustomerFormData) (childIdsToLink : List String) : List Customer :=
  let updated := customers.map (updApplyData id data)
  if data.type == CustomerType.PARENT then
    (updated.map (unlinkPass id childIdsToLink)).map (linkPass id childIdsToLink)
  else updated

/-- `deleteCustomer(id)`: a missing target is a no-op; a PARENT target first
demotes its children (`parentId = null`, `type = PARENT`), then is removed;
any other target is simply removed. -/
def deleteCustomer (customers : List Customer) (id : String) : List Customer :=
  match customers.find? (fun c => c.id == id) with
  | none => customers
  | some customer =>
    if customer.type == CustomerType.PARENT then
      (customers.map fun c =>
        if c.parentId == some id then
          { c with parentId := none, type := CustomerType.PARENT }
        else c).filter fun c => c.id != id
    else customers.filter fun c => c.id != id

/-! ## Batch import resolver (`ImportCustomers`: `processFile` /
`analyzeRows`) -/

/-- The parsed shape of one CSV data row (`interface ImportRow`). -/
structure ImportRow where
  rowNumber : Nat
  customerName : String
  accountNumber : String
  address : String
  zipCode : String
  parentCustomerName : String
  contactName : String
  contactEmail : String
  contactPhone : String
  isPrimary : Bool
deriving DecidableEq, Repr

/-- The resolver's output (`interface ProcessedBatch`): the accepted
customers and the per-row rejections. -/
structure ProcessedBatch where
  validCustomers : List Customer
  errors : List (Nat × String)
deriving DecidableEq, Repr

/-- One iteration of `processFile`'s parsing loop over the data rows:
`index` is the 0-based position among the data rows (header excluded), the
columns are the output of the CSV line split.  A row with fewer than 7
columns yields nothing; column 8 (`cols[7] || ''`) defaults to the empty
string, column 9 feeds the truthiness test
`cols[8]?.toLowerCase() === 'true' || cols[8]?.toLowerCase() === 'yes' || cols[8] === '1'`. -/
def parseImportRow (index : Nat) (cols : List String) : Option ImportRow :=
  if 7 ≤ cols.length then
    some
      { rowNumber := index + 2,
        customerName := cols.getD 0 "", accountNumber := cols.getD 1 "",
        address := cols.getD 2 "", zipCode := cols.getD 3 "",
        parentCustomerName := cols.getD 4 "",
        contactName := cols.getD 5 "", contactEmail := cols.getD 6 "",
        contactPhone := cols.getD 7 "",
        isPrimary :=
          match cols.get? 8 with
          | none => false
          | some s => jsLower s == "true" || jsLower s == "yes" || s == "1" }
  else none

/-- `processFile`'s row-collection loop, starting from data-row index
`index`: parse each row's columns, silently dropping short rows. -/
def parseRows : Nat → List (List String) → List ImportRow
  | _, [] => []
  | index, cols :: rest =>
    match parseImportRow index cols with
    | some row => row :: parseRows (index + 1) rest
    | none => parseRows (index + 1) rest

/-- The keys of `groupedByAccount`, one per distinct account number, in
first-occurrence order. -/
def groupKeys : List ImportRow → List String
  | [] => []
  | r :: rest => r.accountNumber :: (groupKeys rest).filter fun k => k != r.accountNumber

/-- `groupedByAccount[acc]`: the rows of one account-number group, in row
order. -/
def groupRows (rows : List ImportRow) (acc : String) : List ImportRow :=
  rows.filter fun r => r.accountNumber == acc

/-- The name-resolution map (`parentNameMap : Map<string, string>`), used
only through `get` and `set`, so modelled as a function. -/
abbrev NameMap := String → Option String

/-- `Map.prototype.set` (overwrites an existing key). -/
def nmSet (m : NameMap) (k v : String) : NameMap :=
  fun x => if x == k then some v else m x

/-- The empty map. -/
def nmEmpty : NameMap := fun _ => none

/-- `analyzeRows`' first pass over the group keys: for every
PARENT-classified group (blank `parentCustomerName` on its first row)
synthesize an id (`genP` models the `cust_import_${Date.now()}_${random}`
draws, one per parent group, in pass order) and, when the customer name is
truthy, register `lowercased name -> id`. -/
def firstPass (rows : List ImportRow) (genP : Nat → String) :
    List String → NameMap → Nat → NameMap
  | [], m, _ => m
  | k :: ks, m, n =>
    match groupRows rows k with
    | [] => firstPass rows genP ks m n
    | firstRow :: _ =>
      if firstRow.parentCustomerName == "" then
        firstPass rows genP ks
          (if firstRow.customerName != "" then
            nmSet m (jsLower firstRow.customerName) (genP n)
           else m)
          (n + 1)
      else firstPass rows genP ks m n

/-- `groupRows.forEach(r => errors.push({ rowNumber: r.rowNumber, reason }))`. -/
def groupErrorAll (g : List ImportRow) (reason : String) : List (Nat × String) :=
  g.map fun r => (r.rowNumber, reason)

/-- Step 4's contact construction: one `Contact` per group row, with id
`cont_imp_${accNum}_${idx}`. -/
def buildContacts (accNum : String) : Nat → List ImportRow → List Contact
  | _, [] => []
  | idx, r :: rest =>
    { id := "cont_imp_" ++ accNum ++ "_" ++ toString idx,
      name := r.contactName, email := r.contactEmail, phone := r.contactPhone,
      isPrimary := r.isPrimary } :: buildContacts accNum (idx + 1) rest

/-- `validContacts[0].isPrimary = true` (the single-contact auto-primary
mutation). -/
def forcePrimaryHead : List Contact → List Contact
  | [] => []
  | c :: rest => { c with isPrimary := true } :: rest

/-- `if (!finalId) finalId = \x7bcust_err_...\x7d`: a falsy looked-up or
generated id falls back to the error id. -/
def falsyD (o : Option String) (d : String) : String :=
  match o with
  | none => d
  | some s => if s == "" then d else s

/-- Steps 5 and 6 of `analyzeRows`' second pass (hierarchy classification
and customer construction), reached once the contact checks passed.  `vcs`
is the (possibly auto-primaried) valid contact list, `n` the next unused
index of the second pass's id supply `genD`, `now` the
`new Date` values and `errId` the `cust_err_${Date.now()}` fallback. -/
def finishGroup (m : NameMap) (genD : Nat → String) (now errId : String)
    (firstRow : ImportRow) (g : List ImportRow) (vcs : List Contact) (n : Nat) :
    Except (List (Nat × String)) Customer × Nat :=
  let isParent := firstRow.parentCustomerName == ""
  if !isParent && optFalsy (m (jsLower firstRow.parentCustomerName)) then
    (Except.error (groupErrorAll g
      ("Parent Customer '" ++ firstRow.parentCustomerName ++ "' not found (in system or file).")), n)
  else
    let parentId : Option String :=
      if isParent then none else m (jsLower firstRow.parentCustomerName)
    let finalId : String :=
      falsyD (if isParent then m (jsLower firstRow.customerName) else some (genD n)) errId
    let primaryAddress : Address :=
      { id := "addr_" ++ now ++ "_imp", street := some firstRow.address,
        latitude := none, longitude := none,
        city := "Imported City", state := "Imported State",
        zipCode := firstRow.zipCode,
        isPrimary := true, isBilling := true, isGateProperty := false }
    (Except.ok
      { id := finalId,
        type := if isParent then CustomerType.PARENT else CustomerType.DIRECT,
        name := firstRow.customerName, accountNumber := firstRow.accountNumber,
        isVip := false, addresses := [primaryAddress], parentId := parentId,
        contacts := vcs, createdAt := now },
     if isParent then n else n + 1)

/-- `analyzeRows`' second pass on one group: the numbered validation steps
1-4 in source order, each rejection covering the group's rows (the contact
check covering only the offending rows), then `finishGroup`. -/
def processGroup (existingCustomers : List Customer) (m : NameMap)
    (genD : Nat → String) (now errId accNum : String) (g : List ImportRow)
    (n : Nat) : Except (List (Nat × String)) Customer × Nat :=
  match g with
  | [] => (Except.error [], n)
  | firstRow :: _ =>
    if firstRow.customerName == "" then
      (Except.error (groupErrorAll g "Missing Customer Name"), n)
    else if 1 < ((g.map fun r => r.customerName).dedup).length then
      (Except.error (groupErrorAll g
        ("Duplicate Account Number '" ++ accNum ++ "' used for different customer names.")), n)
    else if existingCustomers.any fun c => c.accountNumber == accNum then
      (Except.error (groupErrorAll g
        ("Account Number '" ++ accNum ++ "' already exists in the system.")), n)
    else
      let contacts := buildContacts accNum 0 g
      let validContacts := contacts.filter fun c => c.name != "" && c.email != ""
      if validContacts.length != contacts.length then
        (Except.error (g.filterMap fun r =>
          if r.contactName == "" || r.contactEmail == "" then
            some (r.rowNumber, "Missing Contact Name or Email.")
          else none), n)
      else if validContacts.length == 1 then
        finishGroup m genD now errId firstRow g (forcePrimaryHead validContacts) n
      else if 1 < validContacts.length then
        if ((validContacts.filter fun c => c.isPrimary).length) == 0 then
          (Except.error (groupErrorAll g "Multiple contacts found but none marked as Primary."), n)
        else if 1 < (validContacts.filter fun c => c.isPrimary).length then
          (Except.error (groupErrorAll g "Multiple contacts marked as Primary. Only one allowed."), n)
        else
          finishGroup m genD now errId firstRow g validContacts n
      else
        (Except.error (groupErrorAll g "No valid contacts found."), n)

/-- The second pass's loop over the group keys, threading the id supply and
accumulating accepted customers and rejection entries in pass order. -/
def secondPass (existingCustomers : List Customer) (m : NameMap)
    (genD : Nat → String) (now errId : String) (rows : List ImportRow) :
    List String → Nat → List Customer × List (Nat × String)
  | [], _ => ([], [])
  | k :: ks, n =>
    match processGroup existingCustomers m genD now errId k (groupRows rows k) n with
    | (Except.ok c, n') =>
      let rest := secondPass existingCustomers m genD now errId rows ks n'
      (c :: rest.1, rest.2)
    | (Except.error e, n') =>
      let rest := secondPass existingCustomers m genD now errId rows ks n'
      (rest.1, e ++ rest.2)

/-- `errors.sort((a, b) => a.rowNumber - b.rowNumber)`: an insertion sort by
row number (stable, and it reduces by `decide`). -/
def insertByRow (e : Nat × String) : List (Nat × String) → List (Nat × String)
  | [] => [e]
  | f :: rest => if e.1 ≤ f.1 then e :: f :: rest else f :: insertByRow e rest

/-- Sort the rejection entries by row number. -/
def sortByRow : List (Nat × String) → List (Nat × String)
  | [] => []
  | e :: rest => insertByRow e (sortByRow rest)

/-- `analyzeRows(rows)`: seed the name map with the existing parents, run
the two passes over the account-number groups and sort the rejections.
`genP` / `genD` supply the generated ids of the first and second pass,
`now` the timestamps and `errId` the fallback id. -/
def analyzeRows (existingCustomers existingParents : List Customer)
    (genP genD : Nat → String) (now errId : String) (rows : List ImportRow) :
    ProcessedBatch :=
  let seeded := existingParents.foldl (fun m p => nmSet m (jsLower p.name) p.id) nmEmpty
  let m := firstPass rows genP (groupKeys rows) seeded 0
  let out := secondPass existingCustomers m genD now errId rows (groupKeys rows) 0
  { validCustomers := out.1, errors := sortByRow out.2 }

/-! ## The spec's hierarchy-depth invariant -/

/-- Spec §3: no customer whose id appears as someone's `parentId` itself has
a non-null `parentId` (hierarchy depth at most 2). -/
def Hier2 (customers : List Customer) : Prop :=
  ∀ c ∈ customers, ∀ d ∈ customers, d.parentId = some c.id → c.parentId = none

/-! ## C10: deleting an absent id is a no-op -/

/-- C10: for every population and every id not present in it, `delete(id)`
leaves the population unchanged (the failed lookup returns early, raising
no error). -/
theorem delete_absent_noop (customers : List Customer) (id : String)
    (h : ∀ c ∈ customers, c.id ≠ id) :
    deleteCustomer customers id = customers := by
  have hf : customers.find? (fun c => c.id == id) = none := by
    rw [List.find?_eq_none]
    intro c hc
    simp [h c hc]
  unfold deleteCustomer
  rw [hf]

/-- Witness for C10 at a concrete two-customer population. -/
def popW : List Customer :=
  [{ id := "p", type := CustomerType.PARENT, name := "P", accountNumber := "A1",
     isVip := false, addresses := [], parentId := none, contacts := [], createdAt := "t" },
   { id := "c", type := CustomerType.DIRECT, name := "C", accountNumber := "A2",
     isVip := false, addresses := [], parentId := some "p", contacts := [], createdAt := "t" }]

/-- C10's witness: the theorem applied at `popW` and the absent id "zz". -/
theorem delete_absent_noop_witness : deleteCustomer popW "zz" = popW :=
  delete_absent_noop popW "zz" (by decide)

/-! ## C8: a DIRECT update touches only the targeted record -/

/-- C8: when the candidate's type is DIRECT, `update(id, ...)` leaves every
record other than the one with the given id completely unchanged (in
particular nothing is unlinked from `id` and nothing in `childIdsToLink` is
linked). -/
theorem update_direct_frame (customers : List Customer) (id : String)
    (data : CustomerFormData) (childIdsToLink : List String)
    (h : data.type = CustomerType.DIRECT) :
    List.Forall₂ (fun c c' => c.id ≠ id → c' = c) customers
      (updateCustomer customers id data childIdsToLink) := by
  have hb : (data.type == CustomerType.PARENT) = false := by rw [h]; rfl
  simp only [updateCustomer, hb, Bool.false_eq_true, if_false]
  induction customers with
  | nil => exact List.Forall₂.nil
  | cons c cs ih =>
    refine List.Forall₂.cons (fun hne => ?_) ih
    have : (c.id == id) = false := by simp [hne]
    simp [updApplyData, this]

/-- The DIRECT candidate used in C8's witness. -/
def dataW : CustomerFormData :=
  { type := CustomerType.DIRECT, name := "C2", accountNumber := "A2",
    isVip := false, addresses := [], parentId := some "p", contacts := [] }

/-- C8's witness: the theorem applied at `popW`, updating "c", so the
record "p" is untouched. -/
theorem update_direct_frame_witness :
    List.Forall₂ (fun c c' => c.id ≠ "c" → c' = c) popW
      (updateCustomer popW "c" dataW ["p"]) :=
  update_direct_frame popW "c" dataW ["p"] rfl

/-! ## C7: relink idempotence of `updateCustomer` -/

/-- The per-record composite of `updateCustomer`'s three passes is
idempotent. -/
theorem step_idem (id : String) (data : CustomerFormData) (kids : List String)
    (c : Customer) :
    linkPass id kids (unlinkPass id kids (updApplyData id data
      (linkPass id kids (unlinkPass id kids (updApplyData id data c))))) =
    linkPass id kids (unlinkPass id kids (updApplyData id data c)) := by
  by_cases hic : (c.id == id) = true
  · by_cases hkc : kids.contains c.id = true
    · simp only [updApplyData, unlinkPass, linkPass, replaceWith, hic, hkc, Bool.not_true,
        Bool.and_false, if_true, if_false, Bool.false_eq_true]
    · by_cases hdp : (data.parentId == some id) = true
      · simp only [updApplyData, unlinkPass, linkPass, replaceWith, hic, hkc, Bool.not_false,
          Bool.and_true, if_true, if_false, Bool.false_eq_true, hdp]
      · simp only [updApplyData, unlinkPass, linkPass, replaceWith, hic, hkc, Bool.not_false,
          Bool.and_true, if_true, if_false, Bool.false_eq_true, hdp]
  · by_cases hkc : kids.contains c.id = true
    · simp only [updApplyData, unlinkPass, linkPass, replaceWith, hic, hkc, Bool.not_true,
        Bool.and_false, if_true, if_false, Bool.false_eq_true]
    · by_cases hcp : (c.parentId == some id) = true
      · have hns : ((none : Option String) == some id) = false := rfl
        simp only [updApplyData, unlinkPass, linkPass, replaceWith, hic, hkc, Bool.not_false,
          Bool.and_true, if_true, if_false, Bool.false_eq_true, hcp, hns, ite_self,
          Bool.false_and]
      · simp only [updApplyData, unlinkPass, linkPass, replaceWith, hic, hkc, Bool.not_false,
          Bool.and_true, if_true, if_false, Bool.false_eq_true, hcp]

/-- The replacement pass alone is idempotent. -/
theorem updApplyData_idem (id : String) (data : CustomerFormData) (c : Customer) :
    updApplyData id data (updApplyData id data c) = updApplyData id data c := by
  by_cases hic : (c.id == id) = true
  · simp only [updApplyData, replaceWith, hic, if_true]
  · simp only [updApplyData, hic, if_false, Bool.false_eq_true]

/-- C7: calling `update` twice in succession with identical arguments yields
the same population as calling it once — in particular the same `parentId`
and `type` on every record (the same final linkage). -/
theorem update_relink_idem (customers : List Customer) (id : String)
    (data : CustomerFormData) (childIdsToLink : List String) :
    updateCustomer (updateCustomer customers id data childIdsToLink) id data childIdsToLink =
      updateCustomer customers id data childIdsToLink := by
  by_cases h : (data.type == CustomerType.PARENT) = true
  · simp only [updateCustomer, h, if_true, List.map_map]
    apply List.map_congr_left
    intro a _
    simp only [Function.comp_apply]
    exact step_idem id data childIdsToLink a
  · simp only [updateCustomer, h, if_false, Bool.false_eq_true, List.map_map]
    apply List.map_congr_left
    intro a _
    simp only [Function.comp_apply]
    exact updApplyData_idem id data a

/-! ## C5: delete cascade for a PARENT target -/

/-- C5: deleting a customer of type PARENT demotes every child
(`parentId = null`, `type = PARENT`) without removing it, removes exactly
the target record, and leaves every other record unchanged.  `Population`
is taken with the spec's data-model invariants: unique ids and the
hierarchy-depth invariant. -/
theorem delete_parent_cascade (customers : List Customer) (id : String)
    (hnd : (customers.map fun c => c.id).Nodup) (hinv : Hier2 customers)
    (target : Customer)
    (hfind : customers.find? (fun c => c.id == id) = some target)
    (hty : target.type = CustomerType.PARENT) :
    (∀ d ∈ customers, d.parentId = some id →
      { d with parentId := none, type := CustomerType.PARENT } ∈ deleteCustomer customers id) ∧
    (∀ d ∈ deleteCustomer customers id, d.id ≠ id) ∧
    (∀ d ∈ customers, d.id ≠ id → d.parentId ≠ some id → d ∈ deleteCustomer customers id) ∧
    (deleteCustomer customers id).length + 1 = customers.length := by
  have hbt : (target.type == CustomerType.PARENT) = true := by rw [hty]; rfl
  have hres : deleteCustomer customers id =
      (customers.map fun c =>
        if c.parentId == some id then { c with parentId := none, type := CustomerType.PARENT }
        else c).filter fun c => c.id != id := by
    unfold deleteCustomer
    rw [hfind]
    simp only [hbt, if_true]
  refine ⟨?_, ?_, ?_, ?_⟩
  · intro d hd hdp
    have hdid : d.id ≠ id := by
      intro he
      have h2 := hinv d hd d hd (by rw [hdp, he])
      rw [hdp] at h2
      exact Option.some_ne_none id h2
    rw [hres]
    refine List.mem_filter.mpr ⟨List.mem_map.mpr ⟨d, hd, ?_⟩, ?_⟩
    · simp [hdp]
    · simp [hdid]
  · intro d hd'
    rw [hres] at hd'
    have h2 := (List.mem_filter.mp hd').2
    exact bne_iff_ne.mp h2
  · intro d hd hdid hdp
    rw [hres]
    refine List.mem_filter.mpr ⟨List.mem_map.mpr ⟨d, hd, ?_⟩, ?_⟩
    · have : (d.parentId == some id) = false := by simp [hdp]
      simp [this]
    · simp [hdid]
  · rw [hres]
    have hone : List.countP (fun c => c.id == id) customers = 1 := by
      have htid : target.id = id := by
        have := List.find?_some hfind
        simpa using this
      have hmem : id ∈ customers.map fun c => c.id :=
        List.mem_map.mpr ⟨target, List.mem_of_find?_eq_some hfind, htid⟩
      have := List.count_eq_one_of_mem hnd hmem
      rw [List.count_eq_countP, List.countP_map] at this
      rw [← this]
      apply List.countP_congr
      intro c _
      simp [Function.comp]
    have hsplit := List.length_eq_countP_add_countP (fun c => c.id == id) customers
    have hmapped : List.countP (fun c => c.id != id)
        (customers.map fun c =>
          if c.parentId == some id then { c with parentId := none, type := CustomerType.PARENT }
          else c) = List.countP (fun c => c.id != id) customers := by
      rw [List.countP_map]
      apply List.countP_congr
      intro c _
      simp only [Function.comp]
      by_cases hc : (c.parentId == some id) = true <;> simp [hc]
    have hflen : ((customers.map fun c =>
        if c.parentId == some id then { c with parentId := none, type := CustomerType.PARENT }
        else c).filter fun c => c.id != id).length
        = List.countP (fun c => c.id != id) customers := by
      rw [← List.countP_eq_length_filter, hmapped]
    rw [hflen]
    have hnot : List.countP (fun c => c.id != id) customers
        = List.countP (fun a => decide ¬((a.id == id) = true)) customers := by
      apply List.countP_congr
      intro c _
      cases hq : c.id == id <;> simp [bne, hq]
    omega

/-- C5's witness: deleting parent "p" of `popW` demotes child "c", removes
"p", and shrinks the population by exactly one record. -/
theorem delete_parent_cascade_witness :
    (∀ d ∈ popW, d.parentId = some "p" →
      { d with parentId := none, type := CustomerType.PARENT } ∈ deleteCustomer popW "p") ∧
    (∀ d ∈ deleteCustomer popW "p", d.id ≠ "p") ∧
    (∀ d ∈ popW, d.id ≠ "p" → d.parentId ≠ some "p" → d ∈ deleteCustomer popW "p") ∧
    (deleteCustomer popW "p").length + 1 = popW.length :=
  delete_parent_cascade popW "p" (by decide) (by unfold Hier2; decide)
    { id := "p", type := CustomerType.PARENT, name := "P", accountNumber := "A1",
      isVip := false, addresses := [], parentId := none, contacts := [], createdAt := "t" }
    (by decide) rfl

/-! ## C3: the validator accepts exactly the acceptable candidates -/

/-- A conditional singleton message list is empty exactly when its check
passes. -/
theorem ite_msg_nil {α : Type} (p : Prop) [Decidable p] (x : α) :
    ((if p then [x] else []) = []) ↔ ¬ p := by
  split <;> simp_all

/-- The claim's per-address requirement: non-blank street or both latitude
and longitude non-blank, plus non-blank city, state and zip code. -/
def addrOk (a : Address) : Prop :=
  (hasStreet a = true ∨ hasLatLong a = true) ∧
  jsTrim a.city ≠ "" ∧ jsTrim a.state ≠ "" ∧ jsTrim a.zipCode ≠ ""

/-- One address contributes no message exactly when it satisfies `addrOk`. -/
theorem addressRowErrors_nil (idx : Nat) (a : Address) :
    addressRowErrors idx a = [] ↔ addrOk a := by
  unfold addressRowErrors addrOk
  simp only [List.append_eq_nil, ite_msg_nil]
  cases hs : hasStreet a <;> cases hl : hasLatLong a <;>
    simp [hs, hl, and_assoc]

/-- The address loop contributes no message exactly when every address is
acceptable. -/
theorem addressesErrors_nil : ∀ (idx : Nat) (l : List Address),
    (addressesErrors idx l = [] ↔ ∀ a ∈ l, addrOk a)
  | _, [] => by simp [addressesErrors]
  | idx, a :: rest => by
    simp [addressesErrors, List.append_eq_nil, addressRowErrors_nil,
      addressesErrors_nil (idx + 1) rest]

/-- The claim's per-contact requirement: non-blank name, email and phone. -/
def contactOk (c : Contact) : Prop :=
  jsTrim c.name ≠ "" ∧ jsTrim c.email ≠ "" ∧ jsTrim c.phone ≠ ""

/-- One contact contributes no message exactly when it satisfies
`contactOk`. -/
theorem contactRowErrors_nil (idx : Nat) (c : Contact) :
    contactRowErrors idx c = [] ↔ contactOk c := by
  unfold contactRowErrors contactOk
  simp [List.append_eq_nil, ite_msg_nil]

/-- The contact loop contributes no message exactly when every contact is
acceptable. -/
theorem contactsErrors_nil : ∀ (idx : Nat) (l : List Contact),
    (contactsErrors idx l = [] ↔ ∀ c ∈ l, contactOk c)
  | _, [] => by simp [contactsErrors]
  | idx, c :: rest => by
    simp [contactsErrors, List.append_eq_nil, contactRowErrors_nil,
      contactsErrors_nil (idx + 1) rest]

/-- C3's right-hand side, following the claim's words: name and account
number non-blank; the account number used by no customer other than the one
identified by `excludeId`; a non-empty address list with exactly one
primary and exactly one billing address, every address acceptable; a
non-empty contact list with exactly one primary contact, every contact
acceptable; and not a PARENT candidate with a parent reference present
(present in the code's sense: a truthy `parentId`). -/
def validSpecOk (customers : List Customer) (data : CustomerFormData)
    (excludeId : Option String) : Prop :=
  jsTrim data.name ≠ "" ∧ jsTrim data.accountNumber ≠ "" ∧
  (∀ c ∈ customers, c.accountNumber = data.accountNumber → some c.id = excludeId) ∧
  data.addresses ≠ [] ∧
  (data.addresses.filter fun a => a.isPrimary).length = 1 ∧
  (data.addresses.filter fun a => a.isBilling).length = 1 ∧
  (∀ a ∈ data.addresses, addrOk a) ∧
  data.contacts ≠ [] ∧
  (data.contacts.filter fun c => c.isPrimary).length = 1 ∧
  (∀ c ∈ data.contacts, contactOk c) ∧
  ¬(data.type = CustomerType.PARENT ∧ optFalsy data.parentId = false)

/-- C3: `validate` returns the empty list if and only if every check of the
claim holds.  Each failed check contributes at least one message (nothing
short-circuits), and the embedding is a pure function of its inputs. -/
theorem validate_empty_iff (customers : List Customer) (data : CustomerFormData)
    (excludeId : Option String) :
    validateCustomer customers data excludeId = [] ↔
      validSpecOk customers data excludeId := by
  unfold validateCustomer validSpecOk checkAccountNumberUnique
  by_cases ha : data.addresses = []
  · simp [ha]
  · by_cases hc : data.contacts = []
    · simp [ha, hc]
    · have hla : (data.addresses.length == 0) = false := by
        simp [List.length_eq_zero, ha]
      have hlc : (data.contacts.length == 0) = false := by
        simp [List.length_eq_zero, hc]
      simp only [hla, hlc, if_false, Bool.false_eq_true, List.append_eq_nil, ite_msg_nil,
        addressesErrors_nil, contactsErrors_nil, Bool.not_eq_true', Bool.not_eq_false,
        List.any_eq_false, Bool.and_eq_true, beq_iff_eq, bne_iff_ne, ne_eq,
        Bool.and_eq_false_iff, Bool.not_eq_true]
      constructor
      · intro h
        refine ⟨h.1.1.1.1.1, h.1.1.1.1.2, ?_, ha, ?_, ?_, h.1.1.2.2, hc, ?_, h.1.2.2, h.2⟩
        · intro c hm heq
          by_contra hne
          exact h.1.1.1.2 c hm ⟨heq, hne⟩
        · have u1 := h.1.1.2.1.1.1.1
          have u2 := h.1.1.2.1.1.1.2
          omega
        · have u1 := h.1.1.2.1.1.2
          have u2 := h.1.1.2.1.2
          omega
        · have u1 := h.1.2.1.1
          have u2 := h.1.2.1.2
          omega
      · intro h
        obtain ⟨h1, h2, h3, ha2, hp1, hb1, haddr, hc2, hq1, hcon, h6⟩ := h
        refine ⟨⟨⟨⟨⟨h1, h2⟩, ?_⟩, ⟨⟨⟨⟨by omega, by omega⟩, by omega⟩, by omega⟩, haddr⟩⟩,
          ⟨⟨by omega, by omega⟩, hcon⟩⟩, h6⟩
        intro x hm
        rintro ⟨heq, hne⟩
        exact hne (h3 x hm heq)

/-! ## C2: hierarchy-depth preservation of the mutation engine

The claim as stated is false: the engine never checks that a DIRECT
candidate's `parentId` refers to a top-level record, so `create` (and
likewise `update` and `batchAdd`) can hang a customer below an existing
child.  `hier2_not_preserved` is the counterexample; the amended claim
(`mutation_preserves_hier2`) adds the argument-side conditions each
operation needs. -/

/-- A complete address for `dataBad`. -/
def addrBad : Address :=
  { id := "a3", street := some "3 Main St", latitude := none,
    longitude := none, city := "City", state := "ST", zipCode := "11111",
    isPrimary := true, isBilling := true, isGateProperty := false }

/-- A complete primary contact for `dataBad`. -/
def contBad : Contact :=
  { id := "k3", name := "K", email := "k@x", phone := "555", isPrimary := true }

/-- A DIRECT candidate whose parent reference is the existing child "c" of
`popW`. -/
def dataBad : CustomerFormData :=
  { type := CustomerType.DIRECT, name := "X", accountNumber := "A3",
    isVip := false, addresses := [addrBad], parentId := some "c",
    contacts := [contBad] }

/-- C2's counterexample: `popW` satisfies the invariant and `dataBad` even
passes `validateCustomer`, yet `create` with it breaks the invariant: "c"
becomes referenced as a parent while still carrying `parentId = "p"` (the
validator never checks where a DIRECT candidate's `parentId` points). -/
theorem hier2_not_preserved :
    validateCustomer popW dataBad none = [] ∧
    Hier2 popW ∧ ¬ Hier2 (addCustomer popW dataBad [] "n" "t") := by
  refine ⟨by decide, ?_, ?_⟩
  · unfold Hier2; decide
  · unfold Hier2; decide

/-- `delete` preserves the hierarchy-depth invariant unconditionally. -/
theorem delete_preserves_hier2 (customers : List Customer) (id : String)
    (h : Hier2 customers) : Hier2 (deleteCustomer customers id) := by
  unfold deleteCustomer
  cases hf : customers.find? (fun c => c.id == id) with
  | none => exact h
  | some target =>
    by_cases ht : (target.type == CustomerType.PARENT) = true
    · simp only [ht, if_true]
      intro c hc d hd hdp
      obtain ⟨hc1, hc2⟩ := List.mem_filter.mp hc
      obtain ⟨c0, hc0, hc0e⟩ := List.mem_map.mp hc1
      obtain ⟨hd1, _⟩ := List.mem_filter.mp hd
      obtain ⟨d0, hd0, hd0e⟩ := List.mem_map.mp hd1
      by_cases hcp : (c0.parentId == some id) = true
      · rw [← hc0e]
        simp [hcp]
      · have hceq : c = c0 := by rw [← hc0e]; simp [hcp]
        subst hceq
        by_cases hdpid : (d0.parentId == some id) = true
        · have : d.parentId = none := by rw [← hd0e]; simp [hdpid]
          rw [this] at hdp
          exact absurd hdp (by simp)
        · have hdeq : d = d0 := by rw [← hd0e]; simp [hdpid]
          subst hdeq
          exact h c hc0 d hd0 hdp
    · simp only [ht, if_false, Bool.false_eq_true]
      intro c hc d hd hdp
      exact h c (List.mem_filter.mp hc).1 d (List.mem_filter.mp hd).1 hdp

/-- The argument-side conditions under which `create` preserves the
invariant: the fresh id is really fresh (no record carries or references
it, and it is not among the ids to link), a DIRECT candidate's parent
reference points only at parentless records, and (for a PARENT candidate)
the linked records have no children of their own. -/
def AddOk (customers : List Customer) (data : CustomerFormData)
    (childIdsToLink : List String) (newId : String) : Prop :=
  (∀ c ∈ customers, c.id ≠ newId) ∧
  (∀ c ∈ customers, c.parentId ≠ some newId) ∧
  newId ∉ childIdsToLink ∧
  (data.type = CustomerType.DIRECT →
    data.parentId ≠ some newId ∧
    ∀ c ∈ customers, data.parentId = some c.id → c.parentId = none) ∧
  (data.type = CustomerType.PARENT →
    ∀ c ∈ customers, c.id ∈ childIdsToLink → ∀ d ∈ customers, d.parentId ≠ some c.id)

/-- `create` preserves the invariant under `AddOk`. -/
theorem add_preserves_hier2 (customers : List Customer) (data : CustomerFormData)
    (kids : List String) (newId ts : String) (h : Hier2 customers)
    (hok : AddOk customers data kids newId) :
    Hier2 (addCustomer customers data kids newId ts) := by
  obtain ⟨h1, h2, h3, h4, h5⟩ := hok
  unfold addCustomer
  by_cases hp : (data.type == CustomerType.PARENT && decide (kids.length > 0)) = true
  · have hpt : data.type = CustomerType.PARENT := by
      have := (Bool.and_eq_true _ _).mp hp
      exact beq_iff_eq.mp this.1
    have hnd : (data.type == CustomerType.DIRECT) = false := by rw [hpt]; rfl
    simp only [hp, if_true, hnd, if_false, Bool.false_eq_true]
    intro c hc d hd hdp
    obtain ⟨c0, hc0, hc0e⟩ := List.mem_map.mp hc
    obtain ⟨d0, hd0, hd0e⟩ := List.mem_map.mp hd
    by_cases hck : c0.id ∈ kids
    · -- c is linked to newId: show no d can reference it
      exfalso
      have hcid : c.id = c0.id := by rw [← hc0e]; simp [hck]
      have hcp : c.parentId = some newId := by rw [← hc0e]; simp [hck]
      by_cases hdk : d0.id ∈ kids
      · have hdp2 : d.parentId = some newId := by rw [← hd0e]; simp [hdk]
        rw [hdp2, hcid] at hdp
        have heq : newId = c0.id := by injection hdp
        rcases List.mem_append.mp hc0 with hcm | hcm
        · exact h1 c0 hcm heq.symm
        · rw [← heq] at hck
          exact h3 hck
      · have hde : d = d0 := by rw [← hd0e]; simp [hdk]
        subst hde
        rw [hcid] at hdp
        rcases List.mem_append.mp hd0 with hdm | hdm
        · rcases List.mem_append.mp hc0 with hcm | hcm
          · exact h5 hpt c0 hcm hck d hdm hdp
          · have : c0.id = newId := by
              cases List.mem_singleton.mp hcm
              rfl
            rw [this] at hdp
            exact h2 d hdm hdp
        · have : d.parentId = none := by
            cases List.mem_singleton.mp hdm
            rfl
          rw [this] at hdp
          exact absurd hdp (by simp)
    · have hce : c = c0 := by rw [← hc0e]; simp [hck]
      subst hce
      rcases List.mem_append.mp hc0 with hcm | hcm
      · by_cases hdk : d0.id ∈ kids
        · have hdp2 : d.parentId = some newId := by rw [← hd0e]; simp [hdk]
          rw [hdp2] at hdp
          have : newId = c.id := by injection hdp
          exact absurd this.symm (h1 c hcm)
        · have hde : d = d0 := by rw [← hd0e]; simp [hdk]
          subst hde
          rcases List.mem_append.mp hd0 with hdm | hdm
          · exact h c hcm d hdm hdp
          · have : d.parentId = none := by
              cases List.mem_singleton.mp hdm
              rfl
            rw [this] at hdp
            exact absurd hdp (by simp)
      · -- c is the new record: parentId = none in the PARENT case
        cases List.mem_singleton.mp hcm
        rfl
  · -- no relinking: result is customers ++ [new]
    simp only [hp, if_false, Bool.false_eq_true]
    intro c hc d hd hdp
    rcases List.mem_append.mp hc with hcm | hcm
    · rcases List.mem_append.mp hd with hdm | hdm
      · exact h c hcm d hdm hdp
      · cases List.mem_singleton.mp hdm
        by_cases hdt : (data.type == CustomerType.DIRECT) = true
        · simp only [hdt, if_true] at hdp
          exact (h4 (beq_iff_eq.mp hdt)).2 c hcm hdp
        · simp only [hdt, if_false, Bool.false_eq_true] at hdp
          exact absurd hdp (by simp)
    · cases List.mem_singleton.mp hcm
      rcases List.mem_append.mp hd with hdm | hdm
      · exact absurd hdp (h2 d hdm)
      · cases List.mem_singleton.mp hdm
        by_cases hdt : (data.type == CustomerType.DIRECT) = true
        · simp only [hdt, if_true] at hdp ⊢
          exact absurd hdp ((h4 (beq_iff_eq.mp hdt)).1)
        · simp only [hdt, if_false, Bool.false_eq_true] at hdp
          exact absurd hdp (by simp)

/-- The argument-side conditions under which `update` preserves the
invariant: a DIRECT candidate with a parent reference must point at a
parentless record other than the target, and the target must be childless;
a PARENT candidate must carry no parent reference, must not link itself,
and may link only childless records. -/
def UpdateOk (customers : List Customer) (id : String) (data : CustomerFormData)
    (childIdsToLink : List String) : Prop :=
  (data.type = CustomerType.DIRECT →
    ∀ p, data.parentId = some p →
      p ≠ id ∧
      (∀ c ∈ customers, c.id = p → c.parentId = none) ∧
      (∀ d ∈ customers, d.parentId ≠ some id)) ∧
  (data.type = CustomerType.PARENT →
    data.parentId = none ∧ id ∉ childIdsToLink ∧
    ∀ c ∈ customers, c.id ∈ childIdsToLink → ∀ d ∈ customers, d.parentId ≠ some c.id)

/-- `update` preserves the invariant under `UpdateOk`. -/
theorem update_preserves_hier2 (customers : List Customer) (id : String)
    (data : CustomerFormData) (kids : List String) (h : Hier2 customers)
    (hok : UpdateOk customers id data kids) :
    Hier2 (updateCustomer customers id data kids) := by
  obtain ⟨hdir, hpar⟩ := hok
  unfold updateCustomer
  by_cases hp : (data.type == CustomerType.PARENT) = true
  · have hpt : data.type = CustomerType.PARENT := beq_iff_eq.mp hp
    obtain ⟨hpn, hidk, hnoref⟩ := hpar hpt
    simp only [hp, if_true]
    intro c hc d hd hdp
    obtain ⟨c1, hc1, hc1e⟩ := List.mem_map.mp hc
    obtain ⟨c2, hc2, hc2e⟩ := List.mem_map.mp hc1
    obtain ⟨c0, hc0, hc0e⟩ := List.mem_map.mp hc2
    obtain ⟨d1, hd1, hd1e⟩ := List.mem_map.mp hd
    obtain ⟨d2, hd2, hd2e⟩ := List.mem_map.mp hd1
    obtain ⟨d0, hd0, hd0e⟩ := List.mem_map.mp hd2
    -- compute the composite on c0 in each case
    subst hc0e hc2e hc1e hd0e hd2e hd1e
    by_cases hik : (c0.id == id) = true
    · -- case A: the target record ends with parentId = none
      have : (linkPass id kids (unlinkPass id kids (updApplyData id data c0))).parentId = none := by
        simp only [updApplyData, unlinkPass, linkPass, replaceWith, hik, if_true, hpn]
        have h1 : ((none : Option String) == some id) = false := rfl
        have h2 : c0.id ∉ kids := by rw [beq_iff_eq.mp hik]; exact hidk
        simp [h1, h2]
      rw [this]
    · by_cases hck : c0.id ∈ kids
      · -- case B: c0 is linked; nobody may reference it
        exfalso
        have hcid : (linkPass id kids (unlinkPass id kids (updApplyData id data c0))).id = c0.id := by
          simp only [updApplyData, unlinkPass, linkPass, hik, if_false, Bool.false_eq_true]
          split <;> simp [hck]
        rw [hcid] at hdp
        -- analyse d
        by_cases hdk : d0.id ∈ kids
        · have : (linkPass id kids (unlinkPass id kids (updApplyData id data d0))).parentId = some id := by
            simp only [updApplyData, unlinkPass, linkPass]
            split <;> split <;> simp [replaceWith, hdk]
          rw [this] at hdp
          have : id = c0.id := by injection hdp
          rw [← this] at hck
          exact hidk hck
        · by_cases hdik : (d0.id == id) = true
          · have : (linkPass id kids (unlinkPass id kids (updApplyData id data d0))).parentId = none := by
              have h1 : ((none : Option String) == some id) = false := rfl
              have h2 : d0.id ∉ kids := hdk
              simp only [updApplyData, unlinkPass, linkPass, replaceWith, hdik, if_true, hpn]
              simp [h1, h2]
            rw [this] at hdp
            exact absurd hdp (by simp)
          · -- d0 untouched by rep and link; unlink may apply
            by_cases hdup : (d0.parentId == some id) = true
            · have : (linkPass id kids (unlinkPass id kids (updApplyData id data d0))).parentId = none := by
                simp only [updApplyData, unlinkPass, linkPass, hdik, if_false, Bool.false_eq_true]
                simp [hdup, hdk]
              rw [this] at hdp
              exact absurd hdp (by simp)
            · have : linkPass id kids (unlinkPass id kids (updApplyData id data d0)) = d0 := by
                simp only [updApplyData, unlinkPass, linkPass, hdik, if_false, Bool.false_eq_true]
                simp [hdup, hdk]
              rw [this] at hdp
              exact hnoref c0 hc0 hck d0 hd0 hdp
      · -- cases C/D: c0 not replaced, not linked
        by_cases hcup : (c0.parentId == some id) = true
        · have : (linkPass id kids (unlinkPass id kids (updApplyData id data c0))).parentId = none := by
            simp only [updApplyData, unlinkPass, linkPass, hik, if_false, Bool.false_eq_true]
            simp [hcup, hck]
          rw [this]
        · have hceq : linkPass id kids (unlinkPass id kids (updApplyData id data c0)) = c0 := by
            simp only [updApplyData, unlinkPass, linkPass, hik, if_false, Bool.false_eq_true]
            simp [hcup, hck]
          rw [hceq] at hdp ⊢
          -- analyse d as before
          by_cases hdk : d0.id ∈ kids
          · have : (linkPass id kids (unlinkPass id kids (updApplyData id data d0))).parentId = some id := by
              simp only [updApplyData, unlinkPass, linkPass]
              split <;> split <;> simp [replaceWith, hdk]
            rw [this] at hdp
            have : id = c0.id := by injection hdp
            exact absurd (beq_iff_eq.mpr this.symm) (by simpa using hik)
          · by_cases hdik : (d0.id == id) = true
            · have : (linkPass id kids (unlinkPass id kids (updApplyData id data d0))).parentId = none := by
                have h1 : ((none : Option String) == some id) = false := rfl
                simp only [updApplyData, unlinkPass, linkPass, replaceWith, hdik, if_true, hpn]
                simp [h1, hdk]
              rw [this] at hdp
              exact absurd hdp (by simp)
            · by_cases hdup : (d0.parentId == some id) = true
              · have : (linkPass id kids (unlinkPass id kids (updApplyData id data d0))).parentId = none := by
                  simp only [updApplyData, unlinkPass, linkPass, hdik, if_false, Bool.false_eq_true]
                  simp [hdup, hdk]
                rw [this] at hdp
                exact absurd hdp (by simp)
              · have : linkPass id kids (unlinkPass id kids (updApplyData id data d0)) = d0 := by
                  simp only [updApplyData, unlinkPass, linkPass, hdik, if_false, Bool.false_eq_true]
                  simp [hdup, hdk]
                rw [this] at hdp
                exact h c0 hc0 d0 hd0 hdp
  · -- DIRECT candidate: only the replacement pass runs
    have hdt : data.type = CustomerType.DIRECT := by
      cases hty : data.type
      · rfl
      · rw [hty] at hp; exact absurd rfl hp
    simp only [hp, if_false, Bool.false_eq_true]
    intro c hc d hd hdp
    obtain ⟨c0, hc0, hc0e⟩ := List.mem_map.mp hc
    obtain ⟨d0, hd0, hd0e⟩ := List.mem_map.mp hd
    subst hc0e hd0e
    by_cases hdik : (d0.id == id) = true
    · have hdval : (updApplyData id data d0).parentId = data.parentId := by
        simp [updApplyData, replaceWith, hdik]
      rw [hdval] at hdp
      obtain ⟨hpne, hpp, hnoref⟩ := hdir hdt _ hdp
      by_cases hcik : (c0.id == id) = true
      · exfalso
        apply hpne
        have hcu : (updApplyData id data c0).id = c0.id := by
          simp [updApplyData, replaceWith, hcik]
        rw [hcu]
        exact beq_iff_eq.mp hcik
      · have hc0e2 : updApplyData id data c0 = c0 := by
          simp [updApplyData, hcik]
        rw [hc0e2]
        exact hpp c0 hc0 (by rw [hc0e2])
    · have hd0e2 : updApplyData id data d0 = d0 := by
        simp [updApplyData, hdik]
      rw [hd0e2] at hdp
      by_cases hcik : (c0.id == id) = true
      · have hcu : (updApplyData id data c0).id = c0.id := by
          simp [updApplyData, replaceWith, hcik]
        rw [hcu] at hdp
        cases hdp2 : data.parentId with
        | none => simp [updApplyData, replaceWith, hcik, hdp2]
        | some p =>
          exfalso
          apply (hdir hdt p hdp2).2.2 d0 hd0
          rw [hdp, beq_iff_eq.mp hcik]
      · have hc0e2 : updApplyData id data c0 = c0 := by
          simp [updApplyData, hcik]
        rw [hc0e2] at hdp ⊢
        exact h c0 hc0 d0 hd0 hdp

/-- The conditions under which `batchAdd` preserves the invariant: every
appended record references only parentless records of the combined
population, and no appended id is already referenced. -/
def BatchOk (customers newCustomers : List Customer) : Prop :=
  (∀ n ∈ newCustomers, ∀ c ∈ customers ++ newCustomers,
    n.parentId = some c.id → c.parentId = none) ∧
  (∀ n ∈ newCustomers, ∀ d ∈ customers, d.parentId ≠ some n.id)

/-- `batchAdd` preserves the invariant under `BatchOk`. -/
theorem batch_preserves_hier2 (customers newCustomers : List Customer)
    (h : Hier2 customers) (hok : BatchOk customers newCustomers) :
    Hier2 (batchAddCustomers customers newCustomers) := by
  obtain ⟨h1, h2⟩ := hok
  intro c hc d hd hdp
  rcases List.mem_append.mp hd with hdm | hdm
  · rcases List.mem_append.mp hc with hcm | hcm
    · exact h c hcm d hdm hdp
    · exact absurd hdp (h2 c hcm d hdm)
  · exact h1 d hdm c hc hdp

/-- C2 (amended): for every population satisfying the hierarchy-depth
invariant, `delete` preserves it for every argument, and `create`,
`update` and `batchAdd` preserve it for every argument list satisfying the
operation's well-formedness conditions (`AddOk`, `UpdateOk`, `BatchOk`):
for `create`, the generated id is fresh (no record carries or references
it) and not among `childIdsToLink`, a DIRECT candidate's `parentId` is not
the new id and refers only to parentless records, and a PARENT candidate
links only childless records; for `update` with a DIRECT candidate
carrying a `parentId`, that `parentId` is not the target id and refers
only to parentless records, and no record references the target; for
`update` with a PARENT candidate, the candidate carries no `parentId`, the
target id is not linked, and only childless records are linked; for
`batchAdd`, appended records reference only parentless records of the
combined population and no appended id is referenced. -/
theorem mutation_preserves_hier2 (customers : List Customer) (h : Hier2 customers) :
    (∀ id, Hier2 (deleteCustomer customers id)) ∧
    (∀ data kids newId ts, AddOk customers data kids newId →
      Hier2 (addCustomer customers data kids newId ts)) ∧
    (∀ id data kids, UpdateOk customers id data kids →
      Hier2 (updateCustomer customers id data kids)) ∧
    (∀ newCustomers, BatchOk customers newCustomers →
      Hier2 (batchAddCustomers customers newCustomers)) :=
  ⟨fun id => delete_preserves_hier2 customers id h,
   fun data kids newId ts hok => add_preserves_hier2 customers data kids newId ts h hok,
   fun id data kids hok => update_preserves_hier2 customers id data kids h hok,
   fun newCustomers hok => batch_preserves_hier2 customers newCustomers h hok⟩

/-- A PARENT candidate used by C2's witness. -/
def dataP : CustomerFormData :=
  { type := CustomerType.PARENT, name := "Q", accountNumber := "A9",
    isVip := false, addresses := [], parentId := none, contacts := [] }

/-- C2's witness: the amended theorem applied at `popW`, exercising all
four operations at concrete arguments. -/
theorem mutation_preserves_hier2_witness :
    Hier2 (deleteCustomer popW "p") ∧
    Hier2 (addCustomer popW dataP ["c"] "q" "t") ∧
    Hier2 (updateCustomer popW "p" dataP ["c"]) ∧
    Hier2 (batchAddCustomers popW []) := by
  have h := mutation_preserves_hier2 popW (by unfold Hier2; decide)
  exact ⟨h.1 "p",
    h.2.1 dataP ["c"] "q" "t" (by unfold AddOk; decide),
    h.2.2.1 "p" dataP ["c"] (by unfold UpdateOk; decide),
    h.2.2.2 [] (by unfold BatchOk; decide)⟩

/-! ## The batch import resolver: C1, C4, C6, C9 -/

/-- The group keys are pairwise distinct. -/
theorem groupKeys_nodup : ∀ rows : List ImportRow, (groupKeys rows).Nodup
  | [] => List.nodup_nil
  | r :: rest => by
    simp only [groupKeys]
    refine List.Nodup.cons ?_ (List.Nodup.filter _ (groupKeys_nodup rest))
    intro hmem
    have := (List.mem_filter.mp hmem).2
    simp at this

/-- A key occurs exactly when some row carries that account number. -/
theorem mem_groupKeys : ∀ (rows : List ImportRow) (k : String),
    (k ∈ groupKeys rows ↔ ∃ r ∈ rows, r.accountNumber = k)
  | [], k => by simp [groupKeys]
  | r :: rest, k => by
    simp only [groupKeys, List.mem_cons, List.mem_filter]
    constructor
    · rintro (h | ⟨h, _⟩)
      · exact ⟨r, Or.inl rfl, h.symm⟩
      · obtain ⟨r', hr', he⟩ := (mem_groupKeys rest k).mp h
        exact ⟨r', Or.inr hr', he⟩
    · rintro ⟨r', hr', he⟩
      rcases hr' with h | h
      · subst h; exact Or.inl he.symm
      · by_cases hk : k = r.accountNumber
        · exact Or.inl hk
        · refine Or.inr ⟨(mem_groupKeys rest k).mpr ⟨r', h, he⟩, by simp [hk]⟩

/-- Membership in an account-number group. -/
theorem mem_groupRows (rows : List ImportRow) (k : String) (r : ImportRow) :
    r ∈ groupRows rows k ↔ r ∈ rows ∧ r.accountNumber = k := by
  unfold groupRows
  rw [List.mem_filter]
  simp

/-- Every registered key has a non-empty group. -/
theorem groupRows_ne_nil (rows : List ImportRow) (k : String)
    (h : k ∈ groupKeys rows) : groupRows rows k ≠ [] := by
  obtain ⟨r, hr, he⟩ := (mem_groupKeys rows k).mp h
  intro hnil
  have : r ∈ groupRows rows k := (mem_groupRows rows k r).mpr ⟨hr, he⟩
  rw [hnil] at this
  exact List.not_mem_nil r this

/-- Insertion keeps the entries, up to order. -/
theorem insertByRow_perm (e : Nat × String) :
    ∀ l : List (Nat × String), (insertByRow e l).Perm (e :: l)
  | [] => List.Perm.refl _
  | f :: rest => by
    unfold insertByRow
    split
    · exact List.Perm.refl _
    · exact ((insertByRow_perm e rest).cons f).trans (List.Perm.swap e f rest)

/-- Sorting keeps the entries, up to order. -/
theorem sortByRow_perm : ∀ l : List (Nat × String), (sortByRow l).Perm l
  | [] => List.Perm.refl _
  | e :: rest => (insertByRow_perm e (sortByRow rest)).trans ((sortByRow_perm rest).cons e)

/-- The error part of a group's outcome. -/
def errOf : Except (List (Nat × String)) Customer → List (Nat × String)
  | Except.error e => e
  | Except.ok _ => []

/-- Whether a group was accepted. -/
def okB : Except (List (Nat × String)) Customer → Bool
  | Except.error _ => false
  | Except.ok _ => true

/-- `finishGroup`'s rejection list and acceptance do not depend on the id
supply position. -/
theorem finishGroup_invariant (m : NameMap) (genD : Nat → String)
    (now errId : String) (firstRow : ImportRow) (g : List ImportRow)
    (vcs : List Contact) (n n' : Nat) :
    errOf (finishGroup m genD now errId firstRow g vcs n).1 =
      errOf (finishGroup m genD now errId firstRow g vcs n').1 ∧
    okB (finishGroup m genD now errId firstRow g vcs n).1 =
      okB (finishGroup m genD now errId firstRow g vcs n').1 := by
  simp only [finishGroup]
  refine ⟨?_, ?_⟩ <;> (repeat' split) <;> rfl

set_option maxHeartbeats 2000000 in
/-- A group's rejection list and acceptance do not depend on the id supply
position (only the generated id of an accepted DIRECT customer does). -/
theorem processGroup_invariant (E : List Customer) (m : NameMap) (genD : Nat → String)
    (now errId k : String) (g : List ImportRow) (n n' : Nat) :
    errOf (processGroup E m genD now errId k g n).1 =
      errOf (processGroup E m genD now errId k g n').1 ∧
    okB (processGroup E m genD now errId k g n).1 =
      okB (processGroup E m genD now errId k g n').1 := by
  cases g with
  | nil => exact ⟨rfl, rfl⟩
  | cons firstRow rest =>
    simp only [processGroup]
    refine ⟨?_, ?_⟩ <;> (repeat' split) <;>
      first
        | rfl
        | exact (finishGroup_invariant m genD now errId firstRow (firstRow :: rest) _ n n').1
        | exact (finishGroup_invariant m genD now errId firstRow (firstRow :: rest) _ n n').2

/-- One contact is built per group row. -/
theorem buildContacts_length (k : String) : ∀ (i : Nat) (g : List ImportRow),
    (buildContacts k i g).length = g.length
  | _, [] => rfl
  | i, r :: rest => by simp [buildContacts, buildContacts_length k (i + 1) rest]

/-- The built contacts carry the rows' primary flags. -/
theorem buildContacts_filter_primary (k : String) : ∀ (i : Nat) (g : List ImportRow),
    (List.filter (fun c => c.isPrimary) (buildContacts k i g)).length =
      (List.filter (fun r => r.isPrimary) g).length
  | _, [] => rfl
  | i, r :: rest => by
    simp only [buildContacts, List.filter_cons]
    by_cases hp : r.isPrimary = true <;>
      simp [hp, buildContacts_filter_primary k (i + 1) rest]

/-- The built contacts carry the rows' name/email blankness. -/
theorem buildContacts_filter_valid (k : String) : ∀ (i : Nat) (g : List ImportRow),
    (List.filter (fun c => c.name != "" && c.email != "") (buildContacts k i g)).length =
      (List.filter (fun r => r.contactName != "" && r.contactEmail != "") g).length
  | _, [] => rfl
  | i, r :: rest => by
    simp only [buildContacts, List.filter_cons]
    by_cases hp : (r.contactName != "" && r.contactEmail != "") = true <;>
      simp [hp, buildContacts_filter_valid k (i + 1) rest]

/-- A list whose elements are all equal dedups to at most one element. -/
theorem dedup_length_le_one {α : Type} [DecidableEq α] :
    ∀ (l : List α) (a : α), (∀ x ∈ l, x = a) → l.dedup.length ≤ 1
  | [], _, _ => by simp
  | x :: rest, a, h => by
    by_cases hm : x ∈ rest
    · rw [List.dedup_cons_of_mem hm]
      exact dedup_length_le_one rest a fun y hy => h y (List.mem_cons_of_mem x hy)
    · rw [List.dedup_cons_of_not_mem hm]
      cases rest with
      | nil => simp
      | cons y ys =>
        exfalso
        apply hm
        have hx : x = a := h x (List.mem_cons_self x _)
        have hy : y = a := h y (List.mem_cons_of_mem x (List.mem_cons_self y ys))
        rw [hx, ← hy]
        exact List.mem_cons_self y ys

set_option maxHeartbeats 2000000 in
/-- Inversion of a group rejection: every rejection branch either covers
all rows of the group with one shared reason, or (the contact branch)
covers exactly the rows missing a contact name or email. -/
theorem processGroup_error_shape (E : List Customer) (m : NameMap) (genD : Nat → String)
    (now errId k : String) (g : List ImportRow) (n : Nat) (e : List (Nat × String))
    (h : (processGroup E m genD now errId k g n).1 = Except.error e) :
    (∃ reason, e = groupErrorAll g reason) ∨
    (e = g.filterMap (fun r =>
        if (r.contactName == "" || r.contactEmail == "") = true then
          some (r.rowNumber, "Missing Contact Name or Email.")
        else none) ∧
      ∃ r ∈ g, r.contactName = "" ∨ r.contactEmail = "") := by
  cases g with
  | nil =>
    left
    refine ⟨"", ?_⟩
    have : e = [] := by
      simpa [processGroup, errOf] using h.symm
    simp [this, groupErrorAll]
  | cons firstRow rest =>
    simp only [processGroup] at h
    split at h
    · left; exact ⟨_, (by simpa using h.symm)⟩
    · split at h
      · left; exact ⟨_, (by simpa using h.symm)⟩
      · split at h
        · left; exact ⟨_, (by simpa using h.symm)⟩
        · split at h
          · rename_i hlen
            right
            constructor
            · simpa using h.symm
            · have hne : (List.filter (fun c => c.name != "" && c.email != "")
                  (buildContacts k 0 (firstRow :: rest))).length ≠
                  (buildContacts k 0 (firstRow :: rest)).length := by
                simpa using hlen
              rw [buildContacts_filter_valid, buildContacts_length] at hne
              have hlt : (List.filter (fun r => r.contactName != "" && r.contactEmail != "")
                  (firstRow :: rest)).length < (firstRow :: rest).length :=
                lt_of_le_of_ne (List.length_filter_le _ _) hne
              obtain ⟨r, hr, hrp⟩ := List.length_filter_lt_length_iff_exists.mp hlt
              refine ⟨r, hr, ?_⟩
              rcases Bool.and_eq_false_iff.mp (Bool.not_eq_true _ ▸ hrp) with hb | hb
              · left; simpa using hb
              · right; simpa using hb
          · split at h
            · simp only [finishGroup] at h
              split at h
              · left; exact ⟨_, (by simpa using h.symm)⟩
              · simp at h
            · split at h
              · split at h
                · left; exact ⟨_, (by simpa using h.symm)⟩
                · split at h
                  · left; exact ⟨_, (by simpa using h.symm)⟩
                  · simp only [finishGroup] at h
                    split at h
                    · left; exact ⟨_, (by simpa using h.symm)⟩
                    · simp at h
              · left; exact ⟨_, (by simpa using h.symm)⟩

set_option maxHeartbeats 2000000 in
/-- Inversion of a group acceptance: the accepted customer carries the
group's account number. -/
theorem processGroup_ok_acc (E : List Customer) (m : NameMap) (genD : Nat → String)
    (now errId k : String) (firstRow : ImportRow) (rest : List ImportRow) (n : Nat)
    (c : Customer)
    (h : (processGroup E m genD now errId k (firstRow :: rest) n).1 = Except.ok c) :
    c.accountNumber = firstRow.accountNumber := by
  simp only [processGroup] at h
  split at h
  · simp at h
  · split at h
    · simp at h
    · split at h
      · simp at h
      · split at h
        · simp at h
        · split at h
          · simp only [finishGroup] at h
            split at h
            · simp at h
            · have hc : c = _ := (by simpa using h.symm)
              rw [hc]
          · split at h
            · split at h
              · simp at h
              · split at h
                · simp at h
                · simp only [finishGroup] at h
                  split at h
                  · simp at h
                  · have hc : c = _ := (by simpa using h.symm)
                    rw [hc]
            · simp at h

/-- The second pass's rejections are the per-group rejections in key
order. -/
theorem secondPass_errors (E : List Customer) (m : NameMap) (genD : Nat → String)
    (now errId : String) (rows : List ImportRow) :
    ∀ (ks : List String) (n : Nat),
      (secondPass E m genD now errId rows ks n).2 =
        (ks.map fun k =>
          errOf (processGroup E m genD now errId k (groupRows rows k) 0).1).flatten
  | [], _ => rfl
  | k :: ks, n => by
    have hz := processGroup_invariant E m genD now errId k (groupRows rows k) n 0
    simp only [secondPass]
    split
    · rename_i c n' heq
      have h0 : errOf (processGroup E m genD now errId k (groupRows rows k) 0).1 = [] := by
        rw [← hz.1, heq]
        rfl
      simp [h0, secondPass_errors E m genD now errId rows ks n']
    · rename_i e n' heq
      have h0 : errOf (processGroup E m genD now errId k (groupRows rows k) 0).1 = e := by
        rw [← hz.1, heq]
        rfl
      simp [h0, secondPass_errors E m genD now errId rows ks n']

/-- Every accepted customer comes from an accepted group. -/
theorem secondPass_mem_acc (E : List Customer) (m : NameMap) (genD : Nat → String)
    (now errId : String) (rows : List ImportRow) :
    ∀ (ks : List String) (n : Nat) (c : Customer),
      c ∈ (secondPass E m genD now errId rows ks n).1 →
      ∃ k ∈ ks, ∃ n₁, (processGroup E m genD now errId k (groupRows rows k) n₁).1 = Except.ok c
  | [], _, c, h => absurd h (List.not_mem_nil c)
  | k :: ks, n, c, h => by
    revert h
    simp only [secondPass]
    split
    · rename_i c' n' heq
      intro h
      rcases List.mem_cons.mp h with h | h
      · exact ⟨k, List.mem_cons_self k ks, n, by rw [heq, h]⟩
      · obtain ⟨k', hk', hpg⟩ := secondPass_mem_acc E m genD now errId rows ks n' c h
        exact ⟨k', List.mem_cons_of_mem k hk', hpg⟩
    · rename_i e n' heq
      intro h
      obtain ⟨k', hk', hpg⟩ := secondPass_mem_acc E m genD now errId rows ks n' c h
      exact ⟨k', List.mem_cons_of_mem k hk', hpg⟩

/-- A group accepted at every supply position contributes an accepted
customer. -/
theorem secondPass_mem_of_ok (E : List Customer) (m : NameMap) (genD : Nat → String)
    (now errId : String) (rows : List ImportRow) (Φ : Customer → Prop) :
    ∀ (ks : List String) (n : Nat) (k : String), k ∈ ks →
      (∀ n', ∃ c n₂,
        processGroup E m genD now errId k (groupRows rows k) n' = (Except.ok c, n₂) ∧ Φ c) →
      ∃ c ∈ (secondPass E m genD now errId rows ks n).1, Φ c
  | [], _, k, hk, _ => absurd hk (List.not_mem_nil k)
  | k' :: ks, n, k, hk, hok => by
    rcases List.mem_cons.mp hk with hke | hke
    · subst hke
      obtain ⟨c, n₂, hpg, hphi⟩ := hok n
      simp only [secondPass, hpg]
      exact ⟨c, List.mem_cons_self c _, hphi⟩
    · simp only [secondPass]
      split
      · rename_i c' n2 heq
        obtain ⟨c, hc, hphi⟩ := secondPass_mem_of_ok E m genD now errId rows Φ ks n2 k hke hok
        exact ⟨c, List.mem_cons_of_mem c' hc, hphi⟩
      · rename_i e n2 heq
        exact secondPass_mem_of_ok E m genD now errId rows Φ ks n2 k hke hok

/-- A group's rejection entries only mention the group's own row numbers. -/
theorem errOf_rowNumbers (E : List Customer) (m : NameMap) (genD : Nat → String)
    (now errId k : String) (g : List ImportRow) (n : Nat) :
    ∀ e ∈ errOf (processGroup E m genD now errId k g n).1, ∃ r ∈ g, e.1 = r.rowNumber := by
  intro e he
  cases hres : (processGroup E m genD now errId k g n).1 with
  | ok c =>
    rw [hres] at he
    exact absurd he (List.not_mem_nil e)
  | error es =>
    rw [hres] at he
    have he2 : e ∈ es := he
    rcases processGroup_error_shape E m genD now errId k g n es hres with ⟨reason, hsh⟩ | ⟨hsh, _⟩
    · rw [hsh] at he2
      obtain ⟨r, hr, hre⟩ := List.mem_map.mp he2
      exact ⟨r, hr, by rw [← hre]⟩
    · rw [hsh] at he2
      obtain ⟨r, hr, hre⟩ := List.mem_filterMap.mp he2
      refine ⟨r, hr, ?_⟩
      revert hre
      split
      · intro hre
        have : e = (r.rowNumber, "Missing Contact Name or Email.") := by
          injection hre with h1
          exact h1.symm
        rw [this]
      · intro hre
        exact absurd hre (by simp)

/-- Once a key maps to a generated id, it keeps mapping to one. -/
theorem firstPass_preserves (rows : List ImportRow) (genP : Nat → String) (key : String) :
    ∀ (ks : List String) (m : NameMap) (n : Nat),
      (∃ i, m key = some (genP i)) →
      ∃ i, firstPass rows genP ks m n key = some (genP i)
  | [], m, n, h => h
  | k :: ks, m, n, h => by
    cases hgr : groupRows rows k with
    | nil =>
      simp only [firstPass, hgr]
      exact firstPass_preserves rows genP key ks m n h
    | cons firstRow tail =>
      simp only [firstPass, hgr]
      by_cases h1 : (firstRow.parentCustomerName == "") = true
      · simp only [h1, if_true]
        apply firstPass_preserves rows genP key ks _ (n + 1)
        by_cases h2 : (firstRow.customerName != "") = true
        · simp only [h2, if_true]
          obtain ⟨i, hi⟩ := h
          unfold nmSet
          by_cases hkk : (key == jsLower firstRow.customerName) = true
          · exact ⟨n, by simp [hkk]⟩
          · exact ⟨i, by simp [hkk, hi]⟩
        · simp only [h2, if_false, Bool.false_eq_true]
          exact h
      · simp only [h1, if_false, Bool.false_eq_true]
        exact firstPass_preserves rows genP key ks m n h

/-- The first pass registers every PARENT-classified group's lowered
name. -/
theorem firstPass_registers (rows : List ImportRow) (genP : Nat → String) (key : String) :
    ∀ (ks : List String) (m : NameMap) (n : Nat),
      (∃ k ∈ ks, ∃ firstRow tail, groupRows rows k = firstRow :: tail ∧
        firstRow.parentCustomerName = "" ∧ firstRow.customerName ≠ "" ∧
        jsLower firstRow.customerName = key) →
      ∃ i, firstPass rows genP ks m n key = some (genP i)
  | [], _, _, h => by
    obtain ⟨k, hk, _⟩ := h
    exact absurd hk (List.not_mem_nil k)
  | k :: ks, m, n, h => by
    obtain ⟨k', hk', firstRow, tail, hg, hpcn, hcn, hkey⟩ := h
    rcases List.mem_cons.mp hk' with hke | hke
    · subst hke
      simp only [firstPass, hg]
      have h1 : (firstRow.parentCustomerName == "") = true := by simp [hpcn]
      have h2 : (firstRow.customerName != "") = true := by simp [hcn]
      simp only [h1, if_true, h2]
      apply firstPass_preserves
      refine ⟨n, ?_⟩
      unfold nmSet
      simp [hkey]
    · cases hgr : groupRows rows k with
      | nil =>
        simp only [firstPass, hgr]
        exact firstPass_registers rows genP key ks m n
          ⟨k', hke, firstRow, tail, hg, hpcn, hcn, hkey⟩
      | cons fr tl =>
        simp only [firstPass, hgr]
        by_cases h1 : (fr.parentCustomerName == "") = true
        · simp only [h1, if_true]
          exact firstPass_registers rows genP key ks _ (n + 1)
            ⟨k', hke, firstRow, tail, hg, hpcn, hcn, hkey⟩
        · simp only [h1, if_false, Bool.false_eq_true]
          exact firstPass_registers rows genP key ks m n
            ⟨k', hke, firstRow, tail, hg, hpcn, hcn, hkey⟩

/-- The name-resolution map after seeding and the first pass. -/
def importMap (existingParents : List Customer) (genP : Nat → String)
    (rows : List ImportRow) : NameMap :=
  firstPass rows genP (groupKeys rows)
    (existingParents.foldl (fun m p => nmSet m (jsLower p.name) p.id) nmEmpty) 0

/-- `analyzeRows`, with its passes spelled out. -/
theorem analyzeRows_def (E P : List Customer) (genP genD : Nat → String)
    (now errId : String) (rows : List ImportRow) :
    analyzeRows E P genP genD now errId rows =
      { validCustomers :=
          (secondPass E (importMap P genP rows) genD now errId rows (groupKeys rows) 0).1,
        errors :=
          sortByRow
            (secondPass E (importMap P genP rows) genD now errId rows (groupKeys rows) 0).2 } :=
  rfl

/-- Every built contact's name and email come from a group row. -/
theorem buildContacts_mem (k : String) : ∀ (i : Nat) (g : List ImportRow) (c : Contact),
    c ∈ buildContacts k i g → ∃ r ∈ g, c.name = r.contactName ∧ c.email = r.contactEmail
  | _, [], c, h => absurd h (List.not_mem_nil c)
  | i, r :: rest, c, h => by
    rcases List.mem_cons.mp h with he | he
    · exact ⟨r, List.mem_cons_self r rest, by rw [he], by rw [he]⟩
    · obtain ⟨r', hr', hp⟩ := buildContacts_mem k (i + 1) rest c he
      exact ⟨r', List.mem_cons_of_mem r hr', hp⟩

set_option maxHeartbeats 4000000 in
/-- A group whose data passes the checks (non-blank consistent name, fresh
account number, complete contacts, a coherent primary flag) and, when
DIRECT-classified, whose parent-name lookup is truthy, is accepted, and the
built customer's identity and linkage read off the name-resolution map. -/
theorem processGroup_accepts (E : List Customer) (m : NameMap) (genD : Nat → String)
    (now errId k : String) (firstRow : ImportRow) (rest : List ImportRow)
    (hname : firstRow.customerName ≠ "")
    (hcons : ∀ r ∈ firstRow :: rest, r.customerName = firstRow.customerName)
    (hdb : ∀ c ∈ E, c.accountNumber ≠ k)
    (hcont : ∀ r ∈ firstRow :: rest, r.contactName ≠ "" ∧ r.contactEmail ≠ "")
    (hprim : 1 < (firstRow :: rest).length →
      ((firstRow :: rest).filter fun r => r.isPrimary).length = 1)
    (hlook : firstRow.parentCustomerName ≠ "" →
      optFalsy (m (jsLower firstRow.parentCustomerName)) = false)
    (n : Nat) :
    ∃ c n₂,
      processGroup E m genD now errId k (firstRow :: rest) n = (Except.ok c, n₂) ∧
      c.accountNumber = firstRow.accountNumber ∧
      c.name = firstRow.customerName ∧
      (firstRow.parentCustomerName = "" →
        c.type = CustomerType.PARENT ∧ c.parentId = none ∧
        c.id = falsyD (m (jsLower firstRow.customerName)) errId) ∧
      (firstRow.parentCustomerName ≠ "" →
        c.type = CustomerType.DIRECT ∧
        c.parentId = m (jsLower firstRow.parentCustomerName)) := by
  have hc1 : (firstRow.customerName == "") = false := by simp [hname]
  have hc2 : ¬ (1 < (((firstRow :: rest).map fun r => r.customerName).dedup).length) := by
    have hle := dedup_length_le_one ((firstRow :: rest).map fun r => r.customerName)
      firstRow.customerName (by
        intro x hx
        obtain ⟨r, hr, he⟩ := List.mem_map.mp hx
        rw [← he]
        exact hcons r hr)
    omega
  have hc3 : (E.any fun c => c.accountNumber == k) = false := by
    rw [List.any_eq_false]
    intro c hc
    simp [hdb c hc]
  have hfv : List.filter (fun c => c.name != "" && c.email != "")
      (buildContacts k 0 (firstRow :: rest)) = buildContacts k 0 (firstRow :: rest) := by
    rw [List.filter_eq_self]
    intro c hc
    obtain ⟨r, hr, hn, he⟩ := buildContacts_mem k 0 (firstRow :: rest) c hc
    obtain ⟨hrn, hre⟩ := hcont r hr
    rw [hn, he]
    simp [hrn, hre]
  have hc4 : ((List.filter (fun c => c.name != "" && c.email != "")
      (buildContacts k 0 (firstRow :: rest))).length !=
      (buildContacts k 0 (firstRow :: rest)).length) = false := by
    rw [hfv]
    exact bne_self_eq_false _
  have hguard : (!(firstRow.parentCustomerName == "") &&
      optFalsy (m (jsLower firstRow.parentCustomerName))) = false := by
    by_cases hpcn : firstRow.parentCustomerName = ""
    · simp [hpcn]
    · simp [hlook hpcn]
  have hblen : (buildContacts k 0 (firstRow :: rest)).length = rest.length + 1 := by
    rw [buildContacts_length]
    rfl
  cases rest with
  | nil =>
    have hc5 : ((List.filter (fun c => c.name != "" && c.email != "")
        (buildContacts k 0 [firstRow])).length == 1) = true := by
      rw [hfv, hblen]
      rfl
    simp only [processGroup, hc1, if_false, Bool.false_eq_true, hc2, hc3, hc4, hc5, if_true,
      finishGroup, hguard]
    by_cases hpcn : firstRow.parentCustomerName = ""
    · have hb : (firstRow.parentCustomerName == "") = true := by simp [hpcn]
      simp only [hb, Bool.not_true, Bool.false_and, if_false, Bool.false_eq_true, if_true]
      exact ⟨_, _, rfl, rfl, rfl, fun _ => ⟨rfl, rfl, rfl⟩, fun hne => absurd hpcn hne⟩
    · have hb : (firstRow.parentCustomerName == "") = false := by simp [hpcn]
      simp only [hb, Bool.not_false, Bool.true_and, if_false, Bool.false_eq_true, if_true]
      exact ⟨_, _, rfl, rfl, rfl, fun hp => absurd hp hpcn, fun _ => ⟨rfl, rfl⟩⟩
  | cons r2 rest2 =>
    have hc5 : ((List.filter (fun c => c.name != "" && c.email != "")
        (buildContacts k 0 (firstRow :: r2 :: rest2))).length == 1) = false := by
      rw [hfv, hblen]
      simp
    have hc6 : 1 < (List.filter (fun c => c.name != "" && c.email != "")
        (buildContacts k 0 (firstRow :: r2 :: rest2))).length := by
      rw [hfv, hblen]
      simp only [List.length_cons]
      omega
    have hpc : (List.filter (fun c => c.isPrimary)
        (List.filter (fun c => c.name != "" && c.email != "")
          (buildContacts k 0 (firstRow :: r2 :: rest2)))).length = 1 := by
      rw [hfv, buildContacts_filter_primary]
      exact hprim (by simp)
    have hc7 : ((List.filter (fun c => c.isPrimary)
        (List.filter (fun c => c.name != "" && c.email != "")
          (buildContacts k 0 (firstRow :: r2 :: rest2)))).length == 0) = false := by
      rw [hpc]
      rfl
    have hc8 : ¬ (1 < (List.filter (fun c => c.isPrimary)
        (List.filter (fun c => c.name != "" && c.email != "")
          (buildContacts k 0 (firstRow :: r2 :: rest2)))).length) := by
      rw [hpc]
      omega
    simp only [processGroup, hc1, if_false, Bool.false_eq_true, hc2, hc3, hc4, hc5, hc6,
      if_true, hc7, hc8, finishGroup, hguard]
    by_cases hpcn : firstRow.parentCustomerName = ""
    · have hb : (firstRow.parentCustomerName == "") = true := by simp [hpcn]
      simp only [hb, Bool.not_true, Bool.false_and, if_false, Bool.false_eq_true, if_true]
      exact ⟨_, _, rfl, rfl, rfl, fun _ => ⟨rfl, rfl, rfl⟩, fun hne => absurd hpcn hne⟩
    · have hb : (firstRow.parentCustomerName == "") = false := by simp [hpcn]
      simp only [hb, Bool.not_false, Bool.true_and, if_false, Bool.false_eq_true, if_true]
      exact ⟨_, _, rfl, rfl, rfl, fun hp => absurd hp hpcn, fun _ => ⟨rfl, rfl⟩⟩

/-- An accepted outcome is an `Except.ok` with some next counter. -/
theorem okB_exists (E : List Customer) (m : NameMap) (genD : Nat → String)
    (now errId k : String) (g : List ImportRow) (n : Nat)
    (h : okB (processGroup E m genD now errId k g n).1 = true) :
    ∃ c n₂, processGroup E m genD now errId k g n = (Except.ok c, n₂) := by
  rcases hres : processGroup E m genD now errId k g n with ⟨res, n₂⟩
  cases res with
  | ok c => exact ⟨c, n₂, rfl⟩
  | error e =>
    rw [hres] at h
    exact absurd h (by simp [okB])

/-- C6: two distinct groups, both PARENT-classified and both passing
validation, whose customer names agree after lowercasing, are both accepted
with the same id (the later pre-registration overwrites the earlier map
entry and both groups look their id up by name), so the accepted list does
not guarantee id uniqueness. -/
theorem same_name_parents_same_id (E P : List Customer) (genP genD : Nat → String)
    (now errId : String) (rows : List ImportRow) (k1 k2 : String) (h12 : k1 ≠ k2)
    (hk1 : k1 ∈ groupKeys rows) (hk2 : k2 ∈ groupKeys rows)
    (fr1 : ImportRow) (rest1 : List ImportRow) (hg1 : groupRows rows k1 = fr1 :: rest1)
    (fr2 : ImportRow) (rest2 : List ImportRow) (hg2 : groupRows rows k2 = fr2 :: rest2)
    (hp1 : fr1.parentCustomerName = "") (hp2 : fr2.parentCustomerName = "")
    (hnm : jsLower fr1.customerName = jsLower fr2.customerName)
    (hname1 : fr1.customerName ≠ "")
    (hcons1 : ∀ r ∈ groupRows rows k1, r.customerName = fr1.customerName)
    (hdb1 : ∀ c ∈ E, c.accountNumber ≠ k1)
    (hcont1 : ∀ r ∈ groupRows rows k1, r.contactName ≠ "" ∧ r.contactEmail ≠ "")
    (hprim1 : 1 < (groupRows rows k1).length →
      ((groupRows rows k1).filter fun r => r.isPrimary).length = 1)
    (hname2 : fr2.customerName ≠ "")
    (hcons2 : ∀ r ∈ groupRows rows k2, r.customerName = fr2.customerName)
    (hdb2 : ∀ c ∈ E, c.accountNumber ≠ k2)
    (hcont2 : ∀ r ∈ groupRows rows k2, r.contactName ≠ "" ∧ r.contactEmail ≠ "")
    (hprim2 : 1 < (groupRows rows k2).length →
      ((groupRows rows k2).filter fun r => r.isPrimary).length = 1) :
    ∃ c1 ∈ (analyzeRows E P genP genD now errId rows).validCustomers,
      ∃ c2 ∈ (analyzeRows E P genP genD now errId rows).validCustomers,
        c1.accountNumber = k1 ∧ c2.accountNumber = k2 ∧ c1 ≠ c2 ∧ c1.id = c2.id := by
  have hacc1 : fr1.accountNumber = k1 := by
    have : fr1 ∈ groupRows rows k1 := by rw [hg1]; exact List.mem_cons_self _ _
    exact ((mem_groupRows rows k1 fr1).mp this).2
  have hacc2 : fr2.accountNumber = k2 := by
    have : fr2 ∈ groupRows rows k2 := by rw [hg2]; exact List.mem_cons_self _ _
    exact ((mem_groupRows rows k2 fr2).mp this).2
  rw [hg1] at hcons1 hcont1 hprim1
  rw [hg2] at hcons2 hcont2 hprim2
  have hok1 : ∀ n', ∃ c n₂,
      processGroup E (importMap P genP rows) genD now errId k1 (groupRows rows k1) n' =
        (Except.ok c, n₂) ∧
      (c.accountNumber = k1 ∧
        c.id = falsyD (importMap P genP rows (jsLower fr1.customerName)) errId) := by
    intro n'
    rw [hg1]
    obtain ⟨c, n₂, hpg, ha, hn, hpar, hdir⟩ := processGroup_accepts E (importMap P genP rows)
      genD now errId k1 fr1 rest1 hname1 hcons1 hdb1
      hcont1 hprim1 (fun hne => absurd hp1 hne) n'
    exact ⟨c, n₂, hpg, by rw [ha, hacc1], (hpar hp1).2.2⟩
  have hok2 : ∀ n', ∃ c n₂,
      processGroup E (importMap P genP rows) genD now errId k2 (groupRows rows k2) n' =
        (Except.ok c, n₂) ∧
      (c.accountNumber = k2 ∧
        c.id = falsyD (importMap P genP rows (jsLower fr2.customerName)) errId) := by
    intro n'
    rw [hg2]
    obtain ⟨c, n₂, hpg, ha, hn, hpar, hdir⟩ := processGroup_accepts E (importMap P genP rows)
      genD now errId k2 fr2 rest2 hname2 hcons2 hdb2 hcont2 hprim2
      (fun hne => absurd hp2 hne) n'
    exact ⟨c, n₂, hpg, by rw [ha, hacc2], (hpar hp2).2.2⟩
  obtain ⟨c1, hc1, hphi1⟩ := secondPass_mem_of_ok E (importMap P genP rows) genD now errId rows
    _ (groupKeys rows) 0 k1 hk1 hok1
  obtain ⟨c2, hc2, hphi2⟩ := secondPass_mem_of_ok E (importMap P genP rows) genD now errId rows
    _ (groupKeys rows) 0 k2 hk2 hok2
  rw [analyzeRows_def]
  refine ⟨c1, hc1, c2, hc2, hphi1.1, hphi2.1, ?_, ?_⟩
  · intro he
    apply h12
    rw [← hphi1.1, ← hphi2.1, he]
  · rw [hphi1.2, hphi2.2, hnm]

/-- C4: a DIRECT-classified group whose `parentCustomerName` matches a
PARENT-classified group's customer name case-insensitively resolves to that
in-batch parent: both are accepted and the child's `parentId` is the
accepted parent's id.  The theorem holds for any relative order of the two
groups' rows — in particular when the child's rows precede the parent's —
because the first pass pre-registers every in-batch parent name before any
reference is resolved.  `genP` never generating a falsy (empty) id models
the `cust_import_` prefix of the real generator. -/
theorem forward_reference_links (E P : List Customer) (genP genD : Nat → String)
    (now errId : String) (rows : List ImportRow)
    (hgen : ∀ i, genP i ≠ "")
    (kc kp : String)
    (hkc : kc ∈ groupKeys rows) (hkp : kp ∈ groupKeys rows)
    (frc : ImportRow) (restc : List ImportRow) (hgc : groupRows rows kc = frc :: restc)
    (frp : ImportRow) (restp : List ImportRow) (hgp : groupRows rows kp = frp :: restp)
    (hdirect : frc.parentCustomerName ≠ "")
    (hparent : frp.parentCustomerName = "")
    (hmatch : jsLower frc.parentCustomerName = jsLower frp.customerName)
    (hnamec : frc.customerName ≠ "")
    (hconsc : ∀ r ∈ groupRows rows kc, r.customerName = frc.customerName)
    (hdbc : ∀ c ∈ E, c.accountNumber ≠ kc)
    (hcontc : ∀ r ∈ groupRows rows kc, r.contactName ≠ "" ∧ r.contactEmail ≠ "")
    (hprimc : 1 < (groupRows rows kc).length →
      ((groupRows rows kc).filter fun r => r.isPrimary).length = 1)
    (hnamep : frp.customerName ≠ "")
    (hconsp : ∀ r ∈ groupRows rows kp, r.customerName = frp.customerName)
    (hdbp : ∀ c ∈ E, c.accountNumber ≠ kp)
    (hcontp : ∀ r ∈ groupRows rows kp, r.contactName ≠ "" ∧ r.contactEmail ≠ "")
    (hprimp : 1 < (groupRows rows kp).length →
      ((groupRows rows kp).filter fun r => r.isPrimary).length = 1) :
    ∃ cc ∈ (analyzeRows E P genP genD now errId rows).validCustomers,
      ∃ cp ∈ (analyzeRows E P genP genD now errId rows).validCustomers,
        cc.accountNumber = kc ∧ cp.accountNumber = kp ∧
        cc.type = CustomerType.DIRECT ∧ cp.type = CustomerType.PARENT ∧
        cc.parentId = some cp.id := by
  -- the first pass registers the in-batch parent's lowered name
  obtain ⟨i, hreg⟩ := firstPass_registers rows genP (jsLower frp.customerName)
    (groupKeys rows)
    (P.foldl (fun m p => nmSet m (jsLower p.name) p.id) nmEmpty) 0
    ⟨kp, hkp, frp, restp, hgp, hparent, hnamep, rfl⟩
  have hmap : importMap P genP rows (jsLower frp.customerName) = some (genP i) := hreg
  have hlook : optFalsy (importMap P genP rows (jsLower frc.parentCustomerName)) = false := by
    rw [hmatch, hmap]
    simp [optFalsy, hgen i]
  have haccc : frc.accountNumber = kc := by
    have : frc ∈ groupRows rows kc := by rw [hgc]; exact List.mem_cons_self _ _
    exact ((mem_groupRows rows kc frc).mp this).2
  have haccp : frp.accountNumber = kp := by
    have : frp ∈ groupRows rows kp := by rw [hgp]; exact List.mem_cons_self _ _
    exact ((mem_groupRows rows kp frp).mp this).2
  rw [hgc] at hconsc hcontc hprimc
  rw [hgp] at hconsp hcontp hprimp
  have hokc : ∀ n', ∃ c n₂,
      processGroup E (importMap P genP rows) genD now errId kc (groupRows rows kc) n' =
        (Except.ok c, n₂) ∧
      (c.accountNumber = kc ∧ c.type = CustomerType.DIRECT ∧
        c.parentId = some (genP i)) := by
    intro n'
    rw [hgc]
    obtain ⟨c, n₂, hpg, ha, hn, hpar, hdir⟩ := processGroup_accepts E (importMap P genP rows)
      genD now errId kc frc restc hnamec hconsc hdbc hcontc hprimc
      (fun _ => hlook) n'
    refine ⟨c, n₂, hpg, by rw [ha, haccc], (hdir hdirect).1, ?_⟩
    rw [(hdir hdirect).2, hmatch, hmap]
  have hokp : ∀ n', ∃ c n₂,
      processGroup E (importMap P genP rows) genD now errId kp (groupRows rows kp) n' =
        (Except.ok c, n₂) ∧
      (c.accountNumber = kp ∧ c.type = CustomerType.PARENT ∧ c.id = genP i) := by
    intro n'
    rw [hgp]
    obtain ⟨c, n₂, hpg, ha, hn, hpar, hdir⟩ := processGroup_accepts E (importMap P genP rows)
      genD now errId kp frp restp hnamep hconsp hdbp hcontp hprimp
      (fun hne => absurd hparent hne) n'
    refine ⟨c, n₂, hpg, by rw [ha, haccp], (hpar hparent).1, ?_⟩
    rw [(hpar hparent).2.2, hmap]
    simp [falsyD, hgen i]
  obtain ⟨cc, hcc, hphic⟩ := secondPass_mem_of_ok E (importMap P genP rows) genD now errId rows
    _ (groupKeys rows) 0 kc hkc hokc
  obtain ⟨cp, hcp, hphip⟩ := secondPass_mem_of_ok E (importMap P genP rows) genD now errId rows
    _ (groupKeys rows) 0 kp hkp hokp
  rw [analyzeRows_def]
  exact ⟨cc, hcc, cp, hcp, hphic.1, hphip.1, hphic.2.1, hphip.2.1,
    by rw [hphic.2.2, hphip.2.2]⟩

/-- Every rejection entry of the resolver mentions the row number of some
input row. -/
theorem analyzeRows_errors_from_rows (E P : List Customer) (genP genD : Nat → String)
    (now errId : String) (rows : List ImportRow) :
    ∀ e ∈ (analyzeRows E P genP genD now errId rows).errors, ∃ r ∈ rows, e.1 = r.rowNumber := by
  intro e he
  rw [analyzeRows_def] at he
  have he2 := (sortByRow_perm _).mem_iff.mp he
  rw [secondPass_errors] at he2
  obtain ⟨l, hl, hel⟩ := List.mem_flatten.mp he2
  obtain ⟨k, hk, hlk⟩ := List.mem_map.mp hl
  rw [← hlk] at hel
  obtain ⟨r, hr, he1⟩ := errOf_rowNumbers E (importMap P genP rows) genD now errId k
    (groupRows rows k) 0 e hel
  exact ⟨r, ((mem_groupRows rows k r).mp hr).1, he1⟩

/-- Every kept row comes from a column row of length at least 7, with row
number its 0-based position plus 2. -/
theorem parseRows_mem : ∀ (start : Nat) (colRows : List (List String)) (r : ImportRow),
    r ∈ parseRows start colRows →
    ∃ j, ∃ hj : j < colRows.length,
      r.rowNumber = start + j + 2 ∧ 7 ≤ (colRows.get ⟨j, hj⟩).length
  | _, [], r, h => absurd h (List.not_mem_nil r)
  | start, cols :: rest, r, h => by
    revert h
    unfold parseRows
    cases hoi : parseImportRow start cols with
    | some row =>
      intro h
      rcases List.mem_cons.mp h with he | he
      · subst he
        have hlen : 7 ≤ cols.length := by
          by_contra hlt
          unfold parseImportRow at hoi
          rw [if_neg hlt] at hoi
          exact Option.noConfusion hoi
        have hrn : r.rowNumber = start + 2 := by
          unfold parseImportRow at hoi
          rw [if_pos hlen] at hoi
          injection hoi with h1
          rw [← h1]
        exact ⟨0, by simp, by omega, by simpa using hlen⟩
      · obtain ⟨j, hj, hrn, hl⟩ := parseRows_mem (start + 1) rest r he
        exact ⟨j + 1, by simpa using hj, by omega, hl⟩
    | none =>
      intro h
      obtain ⟨j, hj, hrn, hl⟩ := parseRows_mem (start + 1) rest r h
      exact ⟨j + 1, by simpa using hj, by omega, hl⟩

/-- C9: a data row parses to nothing exactly when it has fewer than 7
columns; a kept row defaults a missing column 8 to the empty string and is
primary exactly when column 9 is case-insensitively `true`/`yes` or exactly
`1`; and a dropped row's number appears in no rejection entry of the
resolver. -/
theorem import_parse_row_policy :
    (∀ (index : Nat) (cols : List String),
      parseImportRow index cols = none ↔ cols.length < 7) ∧
    (∀ (index : Nat) (cols : List String), 7 ≤ cols.length →
      ∃ row, parseImportRow index cols = some row ∧
        row.rowNumber = index + 2 ∧
        row.contactPhone = cols.getD 7 "" ∧
        (row.isPrimary = true ↔ ∃ s, cols.get? 8 = some s ∧
          (jsLower s = "true" ∨ jsLower s = "yes" ∨ s = "1"))) ∧
    (∀ (E P : List Customer) (genP genD : Nat → String) (now errId : String)
      (colRows : List (List String)) (i : Nat) (hi : i < colRows.length),
      (colRows.get ⟨i, hi⟩).length < 7 →
      ∀ e ∈ (analyzeRows E P genP genD now errId (parseRows 0 colRows)).errors,
        e.1 ≠ i + 2) := by
  refine ⟨?_, ?_, ?_⟩
  · intro index cols
    unfold parseImportRow
    split
    · rename_i hlen
      simp
      omega
    · rename_i hlen
      simp
      omega
  · intro index cols hlen
    unfold parseImportRow
    rw [if_pos hlen]
    refine ⟨_, rfl, rfl, rfl, ?_⟩
    cases hc : cols.get? 8 with
    | none => simp
    | some s =>
      simp only [Option.some.injEq]
      constructor
      · intro hb
        rcases Bool.or_eq_true _ _ |>.mp hb with hb | hb
        · rcases Bool.or_eq_true _ _ |>.mp hb with hb | hb
          · exact ⟨s, rfl, Or.inl (by simpa using hb)⟩
          · exact ⟨s, rfl, Or.inr (Or.inl (by simpa using hb))⟩
        · exact ⟨s, rfl, Or.inr (Or.inr (by simpa using hb))⟩
      · rintro ⟨s', hs', hd⟩
        cases hs'
        rcases hd with hd | hd | hd <;> simp [hd]
  · intro E P genP genD now errId colRows i hi hshort e he hcontra
    obtain ⟨r, hr, hern⟩ := analyzeRows_errors_from_rows E P genP genD now errId
      (parseRows 0 colRows) e he
    obtain ⟨j, hj, hrn, hjlen⟩ := parseRows_mem 0 colRows r hr
    rw [hern, hrn] at hcontra
    have hij : j = i := by omega
    subst hij
    omega

/-- The rejection entries carrying a given row number. -/
def rowEntries (b : ProcessedBatch) (rn : Nat) : List (Nat × String) :=
  b.errors.filter fun e => e.1 == rn

/-- Flattening collapses to the one non-empty component. -/
theorem flatten_single {α β : Type} (f : α → List β) :
    ∀ (ks : List α) (k : α), ks.Nodup → k ∈ ks →
      (∀ k' ∈ ks, k' ≠ k → f k' = []) → (ks.map f).flatten = f k
  | [], k, _, hk, _ => absurd hk (List.not_mem_nil k)
  | k' :: ks, k, hnd, hk, hz => by
    simp only [List.map_cons, List.flatten_cons]
    rcases List.mem_cons.mp hk with he | he
    · subst he
      have hz2 : (ks.map f).flatten = [] := by
        rw [List.flatten_eq_nil_iff]
        intro l hl
        obtain ⟨k2, hk2, hlk⟩ := List.mem_map.mp hl
        rw [← hlk]
        apply hz k2 (List.mem_cons_of_mem _ hk2)
        intro hcontra
        subst hcontra
        exact (List.nodup_cons.mp hnd).1 hk2
      rw [hz2, List.append_nil]
    · have hne : k' ≠ k := by
        intro hcontra
        subst hcontra
        exact (List.nodup_cons.mp hnd).1 he
      rw [hz k' (List.mem_cons_self _ _) hne, List.nil_append]
      exact flatten_single f ks k (List.nodup_cons.mp hnd).2 he
        (fun k2 hk2 => hz k2 (List.mem_cons_of_mem _ hk2))

/-- A filter whose predicate picks out exactly one element of a duplicate-free
list yields that element alone. -/
theorem filter_eq_singleton {α : Type} (p : α → Bool) :
    ∀ (l : List α) (a : α), l.Nodup → a ∈ l → (∀ x ∈ l, (p x = true ↔ x = a)) →
      l.filter p = [a]
  | [], a, _, ha, _ => absurd ha (List.not_mem_nil a)
  | x :: xs, a, hnd, ha, hiff => by
    rcases List.mem_cons.mp ha with he | he
    · subst he
      rw [List.filter_cons_of_pos ((hiff a (List.mem_cons_self _ _)).mpr rfl)]
      have : xs.filter p = [] := by
        rw [List.filter_eq_nil_iff]
        intro y hy hp
        have := (hiff y (List.mem_cons_of_mem _ hy)).mp hp
        subst this
        exact (List.nodup_cons.mp hnd).1 hy
      rw [this]
    · have hxa : x ≠ a := by
        intro hcontra
        subst hcontra
        exact (List.nodup_cons.mp hnd).1 he
      rw [List.filter_cons_of_neg (by
        intro hp
        exact hxa ((hiff x (List.mem_cons_self _ _)).mp hp))]
      exact filter_eq_singleton p xs a (List.nodup_cons.mp hnd).2 he
        (fun y hy => hiff y (List.mem_cons_of_mem _ hy))

/-- A conditional `filterMap` is a map over a filter. -/
theorem filterMap_ite {α β : Type} (q : α → Bool) (F : α → β) :
    ∀ l : List α,
      (l.filterMap fun a => if q a = true then some (F a) else none) =
        (l.filter q).map F
  | [] => rfl
  | x :: xs => by
    simp only [List.filterMap_cons, List.filter_cons]
    by_cases hq : q x = true <;> simp [hq, filterMap_ite q F xs]

set_option maxHeartbeats 4000000 in
/-- C1 (amended): in every batch with distinct row numbers, each group is
either accepted — one accepted customer carries its account number and none
of its rows appears in the rejections — or rejected with one entry per row,
all carrying the same reason, except the missing-contact rejection, where
exactly the rows missing a contact name or email carry an entry (rows of
the group with complete contact data contribute no entry and are absent
from both outputs). -/
theorem batch_rows_accounting (E P : List Customer) (genP genD : Nat → String)
    (now errId : String) (rows : List ImportRow)
    (hnd : (rows.map fun r => r.rowNumber).Nodup)
    (k : String) (hk : k ∈ groupKeys rows) :
    ((∃ c ∈ (analyzeRows E P genP genD now errId rows).validCustomers, c.accountNumber = k) ∧
      ∀ r ∈ groupRows rows k,
        rowEntries (analyzeRows E P genP genD now errId rows) r.rowNumber = []) ∨
    ((¬ ∃ c ∈ (analyzeRows E P genP genD now errId rows).validCustomers, c.accountNumber = k) ∧
      ∃ reason, ∀ r ∈ groupRows rows k,
        rowEntries (analyzeRows E P genP genD now errId rows) r.rowNumber =
          [(r.rowNumber, reason)]) ∨
    ((¬ ∃ c ∈ (analyzeRows E P genP genD now errId rows).validCustomers, c.accountNumber = k) ∧
      (∃ r ∈ groupRows rows k, r.contactName = "" ∨ r.contactEmail = "") ∧
      ∀ r ∈ groupRows rows k,
        rowEntries (analyzeRows E P genP genD now errId rows) r.rowNumber =
          if r.contactName = "" ∨ r.contactEmail = "" then
            [(r.rowNumber, "Missing Contact Name or Email.")]
          else []) := by
  have hrnd : rows.Nodup := List.Nodup.of_map _ hnd
  have hinj : ∀ r ∈ rows, ∀ r' ∈ rows, r.rowNumber = r'.rowNumber → r = r' := by
    intro r hr r' hr' he
    exact List.inj_on_of_nodup_map hnd hr hr' he
  have hcross : ∀ r ∈ groupRows rows k, ∀ k' ∈ groupKeys rows, k' ≠ k →
      (errOf (processGroup E (importMap P genP rows) genD now errId k'
        (groupRows rows k') 0).1).filter (fun e => e.1 == r.rowNumber) = [] := by
    intro r hr k' hk' hne
    rw [List.filter_eq_nil_iff]
    intro e he hmatch
    obtain ⟨r', hr', he1⟩ := errOf_rowNumbers E (importMap P genP rows) genD now errId k'
      (groupRows rows k') 0 e he
    have hrr : r' = r := by
      apply hinj r' ((mem_groupRows rows k' r').mp hr').1 r ((mem_groupRows rows k r).mp hr).1
      rw [← he1]
      exact (beq_iff_eq.mp hmatch)
    apply hne
    rw [← ((mem_groupRows rows k' r').mp hr').2, hrr, ((mem_groupRows rows k r).mp hr).2]
  have hB : ∀ r ∈ groupRows rows k,
      (rowEntries (analyzeRows E P genP genD now errId rows) r.rowNumber).Perm
        ((errOf (processGroup E (importMap P genP rows) genD now errId k
          (groupRows rows k) 0).1).filter (fun e => e.1 == r.rowNumber)) := by
    intro r hr
    unfold rowEntries
    rw [analyzeRows_def]
    refine ((sortByRow_perm _).filter _).trans ?_
    rw [secondPass_errors, List.filter_flatten, List.map_map]
    rw [flatten_single (List.filter (fun e => e.1 == r.rowNumber) ∘ fun k' =>
      errOf (processGroup E (importMap P genP rows) genD now errId k'
        (groupRows rows k') 0).1) (groupKeys rows) k (groupKeys_nodup rows) hk
      (fun k' hk' hne => by
        simpa only [Function.comp_apply] using hcross r hr k' hk' hne)]
    simp only [Function.comp_apply]
    exact List.Perm.refl _
  have hokcase : okB (processGroup E (importMap P genP rows) genD now errId k
      (groupRows rows k) 0).1 = true →
      ∃ c ∈ (analyzeRows E P genP genD now errId rows).validCustomers,
        c.accountNumber = k := by
    intro hok
    rw [analyzeRows_def]
    apply secondPass_mem_of_ok E (importMap P genP rows) genD now errId rows
      (fun c => c.accountNumber = k) (groupKeys rows) 0 k hk
    intro n'
    have hokn : okB (processGroup E (importMap P genP rows) genD now errId k
        (groupRows rows k) n').1 = true := by
      rw [(processGroup_invariant E (importMap P genP rows) genD now errId k
        (groupRows rows k) n' 0).2, hok]
    obtain ⟨c, n₂, heq⟩ := okB_exists E (importMap P genP rows) genD now errId k
      (groupRows rows k) n' hokn
    cases hgr : groupRows rows k with
    | nil =>
      rw [hgr] at heq
      exact absurd (congrArg okB (congrArg Prod.fst heq)) (by simp [processGroup, okB])
    | cons fr tl =>
      rw [hgr] at heq
      have hacc : c.accountNumber = fr.accountNumber := by
        apply processGroup_ok_acc E (importMap P genP rows) genD now errId k fr tl n'
        rw [heq]
      have hfr : fr.accountNumber = k := by
        have : fr ∈ groupRows rows k := by rw [hgr]; exact List.mem_cons_self _ _
        exact ((mem_groupRows rows k fr).mp this).2
      exact ⟨c, n₂, heq, by rw [hacc, hfr]⟩
  cases hres : (processGroup E (importMap P genP rows) genD now errId k
      (groupRows rows k) 0).1 with
  | ok c =>
    left
    constructor
    · exact hokcase (by rw [hres]; rfl)
    · intro r hr
      have hperm := hB r hr
      rw [hres] at hperm
      exact hperm.eq_nil
  | error es =>
    have hnoacc : ¬ ∃ c ∈ (analyzeRows E P genP genD now errId rows).validCustomers,
        c.accountNumber = k := by
      rintro ⟨c, hc, hacc⟩
      rw [analyzeRows_def] at hc
      obtain ⟨k', hk', n₁, hok⟩ := secondPass_mem_acc E (importMap P genP rows) genD now errId
        rows (groupKeys rows) 0 c hc
      have hkk : k' = k := by
        cases hgr : groupRows rows k' with
        | nil =>
          rw [hgr] at hok
          exact absurd hok (by simp [processGroup])
        | cons fr tl =>
          rw [hgr] at hok
          have h1 := processGroup_ok_acc E (importMap P genP rows) genD now errId k' fr tl n₁
            c hok
          have hfr : fr.accountNumber = k' := by
            have : fr ∈ groupRows rows k' := by rw [hgr]; exact List.mem_cons_self _ _
            exact ((mem_groupRows rows k' fr).mp this).2
          rw [← hacc, h1, hfr]
      subst hkk
      have hok0 : okB (processGroup E (importMap P genP rows) genD now errId k'
          (groupRows rows k') 0).1 = true := by
        rw [← (processGroup_invariant E (importMap P genP rows) genD now errId k'
          (groupRows rows k') n₁ 0).2, hok]
        rfl
      rw [hres] at hok0
      exact absurd hok0 (by simp [okB])
    rcases processGroup_error_shape E (importMap P genP rows) genD now errId k
      (groupRows rows k) 0 es hres with ⟨reason, hsh⟩ | ⟨hsh, hex⟩
    · right; left
      refine ⟨hnoacc, reason, ?_⟩
      intro r hr
      have hperm := hB r hr
      rw [hres] at hperm
      have hcompute : (errOf (Except.error es :
          Except (List (Nat × String)) Customer)).filter (fun e => e.1 == r.rowNumber) =
          [(r.rowNumber, reason)] := by
        show es.filter (fun e => e.1 == r.rowNumber) = [(r.rowNumber, reason)]
        rw [hsh]
        unfold groupErrorAll
        rw [List.filter_map]
        have hsingle : (groupRows rows k).filter
            ((fun e => e.1 == r.rowNumber) ∘ fun r' => ((r'.rowNumber, reason) : Nat × String)) =
            [r] := by
          apply filter_eq_singleton _ _ r (List.Nodup.filter _ hrnd) hr
          intro x hx
          simp only [Function.comp_apply]
          constructor
          · intro hb
            exact hinj x ((mem_groupRows rows k x).mp hx).1 r
              ((mem_groupRows rows k r).mp hr).1 (beq_iff_eq.mp hb)
          · intro he
            subst he
            exact beq_self_eq_true _
        rw [hsingle]
        rfl
      rw [hcompute] at hperm
      exact List.perm_singleton.mp hperm
    · right; right
      refine ⟨hnoacc, hex, ?_⟩
      intro r hr
      have hperm := hB r hr
      rw [hres] at hperm
      have hsh2 : es = ((groupRows rows k).filter fun r' =>
          (r'.contactName == "" || r'.contactEmail == "")).map
          (fun r' => ((r'.rowNumber, "Missing Contact Name or Email.") : Nat × String)) := by
        rw [hsh]
        exact filterMap_ite _ _ _
      have hrw : es.filter (fun e => e.1 == r.rowNumber) =
          (((groupRows rows k).filter fun r' =>
              ((r'.rowNumber == r.rowNumber) &&
                (r'.contactName == "" || r'.contactEmail == ""))).map
            fun r' => ((r'.rowNumber, "Missing Contact Name or Email.") : Nat × String)) := by
        rw [hsh2, List.filter_map, List.filter_filter]
        rfl
      by_cases hm : r.contactName = "" ∨ r.contactEmail = ""
      · have hsingle : ((groupRows rows k).filter fun r' =>
            ((r'.rowNumber == r.rowNumber) &&
              (r'.contactName == "" || r'.contactEmail == ""))) = [r] := by
          apply filter_eq_singleton _ _ r (List.Nodup.filter _ hrnd) hr
          intro x hx
          constructor
          · intro hb
            have := (Bool.and_eq_true _ _).mp hb
            exact hinj x ((mem_groupRows rows k x).mp hx).1 r
              ((mem_groupRows rows k r).mp hr).1 (beq_iff_eq.mp this.1)
          · intro he
            subst he
            rcases hm with hm | hm <;> simp [hm]
        have hcompute : (errOf (Except.error es :
            Except (List (Nat × String)) Customer)).filter (fun e => e.1 == r.rowNumber) =
            [(r.rowNumber, "Missing Contact Name or Email.")] := by
          show es.filter (fun e => e.1 == r.rowNumber) = _
          rw [hrw, hsingle]
          rfl
        rw [hcompute] at hperm
        rw [if_pos hm]
        exact List.perm_singleton.mp hperm
      · have hnil : ((groupRows rows k).filter fun r' =>
            ((r'.rowNumber == r.rowNumber) &&
              (r'.contactName == "" || r'.contactEmail == ""))) = [] := by
          rw [List.filter_eq_nil_iff]
          intro x hx hb
          have hpair := (Bool.and_eq_true _ _).mp hb
          have hxr : x = r := hinj x ((mem_groupRows rows k x).mp hx).1 r
            ((mem_groupRows rows k r).mp hr).1 (beq_iff_eq.mp hpair.1)
          subst hxr
          rcases (Bool.or_eq_true _ _).mp hpair.2 with hb2 | hb2
          · exact hm (Or.inl (beq_iff_eq.mp hb2))
          · exact hm (Or.inr (beq_iff_eq.mp hb2))
        have hcompute : (errOf (Except.error es :
            Except (List (Nat × String)) Customer)).filter (fun e => e.1 == r.rowNumber) =
            [] := by
          show es.filter (fun e => e.1 == r.rowNumber) = _
          rw [hrw, hnil]
          rfl
        rw [hcompute] at hperm
        rw [if_neg hm]
        exact hperm.eq_nil

/-- C1's counterexample batch, row with complete contact data. -/
def rowFull : ImportRow :=
  { rowNumber := 2, customerName := "N", accountNumber := "A", address := "s",
    zipCode := "z", parentCustomerName := "", contactName := "C1",
    contactEmail := "c1@x", contactPhone := "", isPrimary := true }

/-- C1's counterexample batch, row with a blank contact email. -/
def rowNoEmail : ImportRow :=
  { rowNumber := 3, customerName := "N", accountNumber := "A", address := "s",
    zipCode := "z", parentCustomerName := "", contactName := "C2",
    contactEmail := "", contactPhone := "", isPrimary := false }

/-- A first-pass id supply for concrete runs. -/
def genPW : Nat → String := fun n => "p" ++ toString n

/-- A second-pass id supply for concrete runs. -/
def genDW : Nat → String := fun n => "d" ++ toString n

/-- The resolver's output on the counterexample batch. -/
def cexResolved : ProcessedBatch :=
  analyzeRows [] [] genPW genDW "now0" "cust_err0" [rowFull, rowNoEmail]

/-- C1's counterexample: the single group of the batch `[rowFull,
rowNoEmail]` is rejected (no accepted customer), yet not every row
contributes a rejection entry — `rowFull`'s row number 2 appears in neither
output list. -/
theorem row_accounting_counterexample :
    ¬ ((∃ c ∈ cexResolved.validCustomers, c.accountNumber = "A") ∨
       ∀ r ∈ groupRows [rowFull, rowNoEmail] "A",
         (rowEntries cexResolved r.rowNumber).length = 1) := by
  decide

/-- C1's witness: the amended theorem applied to the counterexample batch
(landing in the missing-contact case). -/
theorem batch_rows_accounting_witness :
    ((∃ c ∈ (analyzeRows [] [] genPW genDW "now0" "cust_err0"
        [rowFull, rowNoEmail]).validCustomers, c.accountNumber = "A") ∧
      ∀ r ∈ groupRows [rowFull, rowNoEmail] "A",
        rowEntries (analyzeRows [] [] genPW genDW "now0" "cust_err0"
          [rowFull, rowNoEmail]) r.rowNumber = []) ∨
    ((¬ ∃ c ∈ (analyzeRows [] [] genPW genDW "now0" "cust_err0"
        [rowFull, rowNoEmail]).validCustomers, c.accountNumber = "A") ∧
      ∃ reason, ∀ r ∈ groupRows [rowFull, rowNoEmail] "A",
        rowEntries (analyzeRows [] [] genPW genDW "now0" "cust_err0"
          [rowFull, rowNoEmail]) r.rowNumber = [(r.rowNumber, reason)]) ∨
    ((¬ ∃ c ∈ (analyzeRows [] [] genPW genDW "now0" "cust_err0"
        [rowFull, rowNoEmail]).validCustomers, c.accountNumber = "A") ∧
      (∃ r ∈ groupRows [rowFull, rowNoEmail] "A",
        r.contactName = "" ∨ r.contactEmail = "") ∧
      ∀ r ∈ groupRows [rowFull, rowNoEmail] "A",
        rowEntries (analyzeRows [] [] genPW genDW "now0" "cust_err0"
          [rowFull, rowNoEmail]) r.rowNumber =
          if r.contactName = "" ∨ r.contactEmail = "" then
            [(r.rowNumber, "Missing Contact Name or Email.")]
          else []) :=
  batch_rows_accounting [] [] genPW genDW "now0" "cust_err0" [rowFull, rowNoEmail]
    (by decide) "A" (by decide)

/-- The witness id supply never produces a falsy id. -/
theorem genPW_ne_empty (i : Nat) : genPW i ≠ "" := by
  intro h
  have hlen := congrArg String.length h
  rw [genPW] at hlen
  rw [String.length_append] at hlen
  simp at hlen
  exact absurd hlen.1 (by decide)

/-- C4's witness: the child row, preceding its parent's row. -/
def rowChild : ImportRow :=
  { rowNumber := 2, customerName := "Punyisa Villa 21", accountNumber := "ACC-9002",
    address := "456 Villa Ln", zipCode := "50000",
    parentCustomerName := "M2 Plus Construction Co Ltd.",
    contactName := "Sarah Villa", contactEmail := "sarah@villa.com",
    contactPhone := "555-5678", isPrimary := true }

/-- C4's witness: the parent's own row. -/
def rowParent : ImportRow :=
  { rowNumber := 3, customerName := "M2 Plus Construction Co Ltd.",
    accountNumber := "ACC-9001", address := "123 Build St", zipCode := "50000",
    parentCustomerName := "", contactName := "Mike Builder",
    contactEmail := "mike@m2plus.com", contactPhone := "555-1234", isPrimary := true }

/-- C4's witness: the template's forward-reference pair resolves. -/
theorem forward_reference_links_witness :
    ∃ cc ∈ (analyzeRows [] [] genPW genDW "t0" "e0"
        [rowChild, rowParent]).validCustomers,
      ∃ cp ∈ (analyzeRows [] [] genPW genDW "t0" "e0"
          [rowChild, rowParent]).validCustomers,
        cc.accountNumber = "ACC-9002" ∧ cp.accountNumber = "ACC-9001" ∧
        cc.type = CustomerType.DIRECT ∧ cp.type = CustomerType.PARENT ∧
        cc.parentId = some cp.id :=
  forward_reference_links [] [] genPW genDW "t0" "e0" [rowChild, rowParent]
    genPW_ne_empty "ACC-9002" "ACC-9001" (by decide) (by decide)
    rowChild [] (by decide) rowParent [] (by decide)
    (by decide) (by decide) (by decide) (by decide) (by decide) (by decide)
    (by decide) (by decide) (by decide) (by decide) (by decide) (by decide)
    (by decide)

/-- C6's witness: first PARENT group. -/
def rowAcme1 : ImportRow :=
  { rowNumber := 2, customerName := "Acme", accountNumber := "A1", address := "s",
    zipCode := "z", parentCustomerName := "", contactName := "C",
    contactEmail := "c@x", contactPhone := "", isPrimary := true }

/-- C6's witness: second PARENT group, same name up to case. -/
def rowAcme2 : ImportRow :=
  { rowNumber := 3, customerName := "ACME", accountNumber := "A2", address := "s",
    zipCode := "z", parentCustomerName := "", contactName := "D",
    contactEmail := "d@x", contactPhone := "", isPrimary := true }

/-- C6's witness: the names Acme and ACME collide after lowering. -/
theorem same_name_parents_same_id_witness :
    ∃ c1 ∈ (analyzeRows [] [] genPW genDW "t0" "e0"
        [rowAcme1, rowAcme2]).validCustomers,
      ∃ c2 ∈ (analyzeRows [] [] genPW genDW "t0" "e0"
          [rowAcme1, rowAcme2]).validCustomers,
        c1.accountNumber = "A1" ∧ c2.accountNumber = "A2" ∧ c1 ≠ c2 ∧ c1.id = c2.id :=
  same_name_parents_same_id [] [] genPW genDW "t0" "e0" [rowAcme1, rowAcme2]
    "A1" "A2" (by decide) (by decide) (by decide)
    rowAcme1 [] (by decide) rowAcme2 [] (by decide)
    (by decide) (by decide) (by decide) (by decide)
    (by decide) (by decide) (by decide) (by decide)
    (by decide) (by decide) (by decide) (by decide) (by decide)

/-- C9's witness: a short row is dropped silently while a later full row is
kept with the defaulting and truthiness policy. -/
theorem import_parse_row_policy_witness :
    parseImportRow 0 ["short", "row"] = none ∧
    (∃ row, parseImportRow 1 ["n", "a", "ad", "z", "p", "cn", "ce"] = some row ∧
      row.rowNumber = 3 ∧
      row.contactPhone = (["n", "a", "ad", "z", "p", "cn", "ce"].getD 7 "") ∧
      (row.isPrimary = true ↔ ∃ s, ["n", "a", "ad", "z", "p", "cn", "ce"].get? 8 = some s ∧
        (jsLower s = "true" ∨ jsLower s = "yes" ∨ s = "1"))) ∧
    (∀ e ∈ (analyzeRows [] [] genPW genDW "t0" "e0"
        (parseRows 0 [["short", "row"],
          ["n", "a", "ad", "z", "", "cn", "", "ph", "YES"]])).errors,
      e.1 ≠ 2) :=
  ⟨(import_parse_row_policy.1 0 ["short", "row"]).mpr (by decide),
   import_parse_row_policy.2.1 1 ["n", "a", "ad", "z", "p", "cn", "ce"] (by decide),
   import_parse_row_policy.2.2 [] [] genPW genDW "t0" "e0"
     [["short", "row"], ["n", "a", "ad", "z", "", "cn", "", "ph", "YES"]] 0
     (by decide) (by decide)⟩


end Subcontact
